import Mathlib

/-!
# Verification of the repository static-analysis engine

Shallow embedding of `src/code_analyzer/code_analyzer.py` (the whole-repository
Python static-analysis engine) and proofs about its analysis passes:
complexity metrics, control-flow and data-flow facts, edge-case inference,
the module analyzer's error containment, import classification, the
deterministic sort of the parallel orchestrator, and test-generation hints.

Modelling conventions:
* Python AST nodes become the closed inductive type `PyAst`, mirroring the
  node kinds the analyzer dispatches on.  Expression-valued positions that the
  analyzer only ever consumes as unparsed text (parameter type hints, default
  expressions, return type hints, `AnnAssign` annotations) are modelled as
  opaque `String`s, so they are not traversed by `walk` (the source would
  traverse the underlying expression nodes; none of the verified properties
  depend on that difference).
* `ast.walk` is breadth-first (a deque seeded with the root, extended with
  `iter_child_nodes`); `walk` below reproduces that level ordering, using
  `sizeOf` as fuel so that everything stays a computable structural recursion.
* Python `set` accumulators are modelled by `List.dedup` on the accumulated
  list; `sorted(...)` of a set by `List.insertionSort` after `dedup`.  Python's
  stable `list.sort(key=...)` is modelled by `List.insertionSort` on the key
  relation, which is likewise stable.
* File reading and `ast.parse` outcomes are modelled by `PyFileContent`
  (unreadable / syntax error / parsed tree), matching the three branches of
  `_analyze_module`.  Per-construct exceptions cannot occur in the total
  model, so the corresponding `except` bookkeeping contributes no errors.
* The function `source` field and the regex docstring parser
  (`_parse_docstring`) are outside the verified scope (the spec keeps the
  docstring heuristics as a best-effort auxiliary); the raw docstring is kept.
-/

namespace CodeAnalyzer

/-! ## String helpers (Python `in`, `str.lower`, `pathlib` stem/suffix) -/

/-- Does the character list `hay` start with `needle`? -/
def chStarts : List Char → List Char → Bool
  | _, [] => true
  | [], _ :: _ => false
  | h :: t, n :: ns => h == n && chStarts t ns

/-- Does the character list `hay` contain `needle` as a contiguous sublist? -/
def chHas : List Char → List Char → Bool
  | [], needle => needle.isEmpty
  | h :: t, needle => chStarts (h :: t) needle || chHas t needle

/-- Python's `needle in hay` on strings. -/
def hasSubstr (hay needle : String) : Bool := chHas hay.toList needle.toList

/-- Split a character list at every separator (Python `s.split(sep)` for a
one-character separator: the result is never empty and keeps empty
segments). -/
def splitOnCh (sep : Char) : List Char → List (List Char)
  | [] => [[]]
  | c :: rest =>
    let r := splitOnCh sep rest
    if c == sep then [] :: r
    else
      match r with
      | [] => [[c]]
      | h :: t => (c :: h) :: t

/-- Python `s.split(".")`. -/
def splitDots (s : String) : List String :=
  (splitOnCh '.' s.toList).map (fun l => String.mk l)

/-- The final component of a `/`-separated path string. -/
def lastComponent (p : String) : String :=
  ((splitOnCh '/' p.toList).map (fun l => String.mk l)).getLastD ""

/-- Python `s.lower()` (ASCII). -/
def strLower (s : String) : String := String.mk (s.toList.map Char.toLower)

/-- Python `s.startswith(t)`. -/
def strStartsWith (s t : String) : Bool := chStarts s.toList t.toList

/-- Python `s.endswith(t)`. -/
def strEndsWith (s t : String) : Bool := chStarts s.toList.reverse t.toList.reverse

/-- `pathlib.Path(name).stem` for a single path component:
the file name with its final suffix removed (dotfiles keep their name). -/
def pyStem (s : String) : String :=
  let parts := splitDots s
  if parts.length ≥ 2 && parts.headD "" ≠ "" then
    String.intercalate "." (parts.dropLast)
  else s

/-- `pathlib.Path(name).suffix` for a single path component. -/
def pySuffix (s : String) : String :=
  let parts := splitDots s
  if parts.length ≥ 2 && parts.headD "" ≠ "" then
    "." ++ (parts.getLastD "")
  else ""

/-- Python's `str.isupper()` restricted to ASCII: at least one cased
character and no lowercase character. -/
def pyIsUpper (s : String) : Bool :=
  s.toList.any (fun c => c.isAlpha) && s.toList.all (fun c => !c.isLower)

/-! ## The Python abstract syntax tree

One closed inductive type for statements, expressions, handlers and match
cases, exactly the node kinds `code_analyzer.py` dispatches on via
`isinstance`.  Field names follow the `ast` module. -/

/-- Constant literals (`ast.Constant`).  Floats do not occur in any verified
property and are omitted. -/
inductive PyConst where
  | int (n : Int)
  | str (s : String)
  | bool (b : Bool)
  | none
  deriving DecidableEq, Repr

/-- One formal parameter (`ast.arg`): its name and the unparsed text of its
type hint, if any. -/
structure PyArg where
  arg : String
  ann : Option String := Option.none
  deriving DecidableEq, Repr

/-- `ast.arguments`: the full parameter specification of a function.
Default expressions are kept as their unparsed text. -/
structure PyArguments where
  posonlyargs : List PyArg := []
  args : List PyArg := []
  vararg : Option PyArg := Option.none
  kwonlyargs : List PyArg := []
  kwDefaults : List (Option String) := []
  kwarg : Option PyArg := Option.none
  defaults : List String := []
  deriving DecidableEq, Repr

/-- `ast.alias`: an imported name and its optional `as` rename. -/
structure ImportAlias where
  aname : String
  asname : Option String := Option.none
  deriving DecidableEq, Repr

/-- The Python AST node kinds the analyzer inspects. -/
inductive PyAst where
  -- expressions
  | name (id : String)
  | attr (value : PyAst) (attrName : String)
  | subscript (value : PyAst) (idx : PyAst)
  | call (func : PyAst) (args : List PyAst)
  | boolOp (op : String) (values : List PyAst)
  | binOp (left : PyAst) (op : String) (right : PyAst)
  | unaryOp (op : String) (operand : PyAst)
  | compare (left : PyAst) (ops : List String) (comparators : List PyAst)
  | ifExp (test : PyAst) (body : PyAst) (orelse : PyAst)
  | constant (value : PyConst)
  | listLit (elts : List PyAst)
  | tupleLit (elts : List PyAst)
  | setLit (elts : List PyAst)
  | dictLit (keys : List PyAst) (values : List PyAst)
  | yield (value : Option PyAst)
  | yieldFrom (value : PyAst)
  -- statements
  | exprStmt (value : PyAst)
  | assign (targets : List PyAst) (value : PyAst) (lineno : Nat)
  | augAssign (target : PyAst) (op : String) (value : PyAst)
  | annAssign (target : PyAst) (ann : String) (value : Option PyAst) (lineno : Nat)
  | returnStmt (value : Option PyAst)
  | passStmt
  | ifStmt (test : PyAst) (body : List PyAst) (orelse : List PyAst)
  | forStmt (target : PyAst) (iter : PyAst) (body : List PyAst) (orelse : List PyAst)
  | whileStmt (test : PyAst) (body : List PyAst) (orelse : List PyAst)
  | withStmt (items : List PyAst) (body : List PyAst)
  | raiseStmt (exc : Option PyAst) (cause : Option PyAst)
  | tryStmt (body : List PyAst) (handlers : List PyAst) (orelse : List PyAst)
      (finalbody : List PyAst)
  | exceptHandler (etype : Option PyAst) (hname : Option String) (body : List PyAst)
  | assertStmt (test : PyAst) (msg : Option PyAst)
  | globalStmt (names : List String)
  | nonlocalStmt (names : List String)
  | matchStmt (subject : PyAst) (cases : List PyAst)
  | matchCase (guard : Option PyAst) (body : List PyAst)
  | importStmt (names : List ImportAlias) (lineno : Nat)
  | importFrom (module : Option String) (names : List ImportAlias) (lineno : Nat)
  | functionDef (isAsync : Bool) (fname : String) (fargs : PyArguments)
      (body : List PyAst) (decorators : List PyAst) (returns : Option String)
      (lineno : Nat) (endLineno : Option Nat)
  | classDef (cname : String) (bases : List PyAst) (body : List PyAst)
      (decorators : List PyAst) (lineno : Nat) (endLineno : Option Nat)
  deriving Repr

/-- `ast.iter_child_nodes`: the direct child nodes of a node, in field order.
Fields modelled as opaque text (type hints, defaults) have no child nodes. -/
def children : PyAst → List PyAst
  | .name _ => []
  | .attr v _ => [v]
  | .subscript v i => [v, i]
  | .call f args => f :: args
  | .boolOp _ values => values
  | .binOp l _ r => [l, r]
  | .unaryOp _ v => [v]
  | .compare l _ comparators => l :: comparators
  | .ifExp t b o => [t, b, o]
  | .constant _ => []
  | .listLit elts => elts
  | .tupleLit elts => elts
  | .setLit elts => elts
  | .dictLit ks vs => ks ++ vs
  | .yield v => v.toList
  | .yieldFrom v => [v]
  | .exprStmt v => [v]
  | .assign tgts v _ => tgts ++ [v]
  | .augAssign t _ v => [t, v]
  | .annAssign t _ v _ => t :: v.toList
  | .returnStmt v => v.toList
  | .passStmt => []
  | .ifStmt t b o => t :: (b ++ o)
  | .forStmt t it b o => t :: it :: (b ++ o)
  | .whileStmt t b o => t :: (b ++ o)
  | .withStmt items b => items ++ b
  | .raiseStmt e c => e.toList ++ c.toList
  | .tryStmt b h o f => b ++ h ++ o ++ f
  | .exceptHandler e _ b => e.toList ++ b
  | .assertStmt t m => t :: m.toList
  | .globalStmt _ => []
  | .nonlocalStmt _ => []
  | .matchStmt s cases => s :: cases
  | .matchCase g b => g.toList ++ b
  | .importStmt _ _ => []
  | .importFrom _ _ _ => []
  | .functionDef _ _ _ b decs _ _ _ => b ++ decs
  | .classDef _ bases b decs _ _ => bases ++ b ++ decs

/-! ### Size bookkeeping for the fuelled traversals

The derived `SizeOf` instance of a nested inductive is noncomputable, so the
node-count size is defined by hand; it serves as fuel for the traversals. -/

mutual

/-- Number of AST nodes in the tree rooted at `n` (counting `n`). -/
def astSize : PyAst → Nat
  | .name _ => 1
  | .attr v _ => 1 + astSize v
  | .subscript v i => 1 + astSize v + astSize i
  | .call f args => 1 + astSize f + astSizeL args
  | .boolOp _ values => 1 + astSizeL values
  | .binOp l _ r => 1 + astSize l + astSize r
  | .unaryOp _ v => 1 + astSize v
  | .compare l _ comparators => 1 + astSize l + astSizeL comparators
  | .ifExp t b o => 1 + astSize t + astSize b + astSize o
  | .constant _ => 1
  | .listLit elts => 1 + astSizeL elts
  | .tupleLit elts => 1 + astSizeL elts
  | .setLit elts => 1 + astSizeL elts
  | .dictLit ks vs => 1 + astSizeL ks + astSizeL vs
  | .yield v => 1 + astSizeO v
  | .yieldFrom v => 1 + astSize v
  | .exprStmt v => 1 + astSize v
  | .assign tgts v _ => 1 + astSizeL tgts + astSize v
  | .augAssign t _ v => 1 + astSize t + astSize v
  | .annAssign t _ v _ => 1 + astSize t + astSizeO v
  | .returnStmt v => 1 + astSizeO v
  | .passStmt => 1
  | .ifStmt t b o => 1 + astSize t + astSizeL b + astSizeL o
  | .forStmt t it b o => 1 + astSize t + astSize it + astSizeL b + astSizeL o
  | .whileStmt t b o => 1 + astSize t + astSizeL b + astSizeL o
  | .withStmt items b => 1 + astSizeL items + astSizeL b
  | .raiseStmt e c => 1 + astSizeO e + astSizeO c
  | .tryStmt b h o f => 1 + astSizeL b + astSizeL h + astSizeL o + astSizeL f
  | .exceptHandler e _ b => 1 + astSizeO e + astSizeL b
  | .assertStmt t m => 1 + astSize t + astSizeO m
  | .globalStmt _ => 1
  | .nonlocalStmt _ => 1
  | .matchStmt s cases => 1 + astSize s + astSizeL cases
  | .matchCase g b => 1 + astSizeO g + astSizeL b
  | .importStmt _ _ => 1
  | .importFrom _ _ _ => 1
  | .functionDef _ _ _ b decs _ _ _ => 1 + astSizeL b + astSizeL decs
  | .classDef _ bases b decs _ _ => 1 + astSizeL bases + astSizeL b + astSizeL decs

/-- Total node count of a list of trees. -/
def astSizeL : List PyAst → Nat
  | [] => 0
  | a :: l => astSize a + astSizeL l

/-- Total node count of an optional tree. -/
def astSizeO : Option PyAst → Nat
  | Option.none => 0
  | Option.some a => astSize a

end

theorem astSizeL_append (l₁ l₂ : List PyAst) :
    astSizeL (l₁ ++ l₂) = astSizeL l₁ + astSizeL l₂ := by
  induction l₁ with
  | nil => simp [astSizeL]
  | cons a t ih => simp [astSizeL, ih]; omega

theorem astSizeL_toList (o : Option PyAst) : astSizeL o.toList = astSizeO o := by
  cases o <;> simp [astSizeO, astSizeL]

/-- Node counts decompose through `children`: a node is itself plus its
children's subtrees. -/
theorem astSize_eq_children (n : PyAst) :
    astSize n = 1 + astSizeL (children n) := by
  cases n <;>
    simp [astSize, children, astSizeL, astSizeL_append, astSizeL_toList] <;>
    omega

theorem astSize_pos (n : PyAst) : 1 ≤ astSize n := by
  rw [astSize_eq_children]; omega

/-! ## `ast.walk`

Breadth-first traversal: the queue is emitted level by level, each level
followed by the concatenation of its children (`ast.walk` uses a deque
extended with `iter_child_nodes`).  `astSize` of the root is (more than)
enough fuel because every round strictly shrinks the total size of the
queue. -/

/-- One breadth-first sweep of `ast.walk`, fuelled. -/
def walkAux : Nat → List PyAst → List PyAst
  | 0, _ => []
  | _ + 1, [] => []
  | fuel + 1, a :: rest => (a :: rest) ++ walkAux fuel ((a :: rest).flatMap children)

/-- `ast.walk(n)`: `n` together with all its descendants, breadth first. -/
def walk (n : PyAst) : List PyAst := walkAux (astSize n) [n]

theorem flat_children_le (q : List PyAst) :
    astSizeL (q.flatMap children) + q.length ≤ astSizeL q := by
  induction q with
  | nil => simp [astSizeL]
  | cons a t ih =>
    have := astSize_eq_children a
    simp only [List.flatMap_cons, astSizeL_append, astSizeL, List.length_cons]
    omega

theorem astSizeL_eq_zero {q : List PyAst} (h : astSizeL q = 0) : q = [] := by
  cases q with
  | nil => rfl
  | cons a t => have := astSize_pos a; simp [astSizeL] at h; omega

/-! ## Cyclomatic and cognitive complexity (`_cyclomatic_complexity`,
`_cognitive_complexity`, `_max_nesting_depth`) -/

/-- The contribution of one visited node to `_cyclomatic_complexity`'s
count: the `isinstance` chain of the source, in order. -/
def nodeWeight : PyAst → Int
  | .ifStmt .. => 1
  | .ifExp .. => 1
  | .forStmt .. => 1
  | .whileStmt .. => 1
  | .exceptHandler .. => 1
  | .withStmt .. => 1
  | .assertStmt .. => 1
  | .boolOp _ values => (values.length : Int) - 1
  | .matchStmt _ cases => (cases.length : Int)
  | _ => 0

/-- `_cyclomatic_complexity`: `count = 1`, then one pass over `ast.walk`
adding each node's contribution. -/
def cyclomaticComplexity (n : PyAst) : Int :=
  (walk n).foldl (fun count child => count + nodeWeight child) 1

/-- Fuelled structural count of decision points: each node's
`nodeWeight` summed over the whole tree.  This is the spec's reading of
"number of decision points" (conditionals, loops, exception handlers,
with-blocks, assertions, boolean-operator chains contributing operand
count minus one, match arms one per case). -/
def dpF : Nat → PyAst → Int
  | 0, _ => 0
  | fuel + 1, n => nodeWeight n + ((children n).map (dpF fuel)).sum

/-- The number of decision points of a tree (spec-side definition,
structural rather than walk-based). -/
def decisionPoints (n : PyAst) : Int := dpF (astSize n) n

theorem foldl_add_weight (l : List PyAst) (init : Int) :
    l.foldl (fun count child => count + nodeWeight child) init
      = init + (l.map nodeWeight).sum := by
  induction l generalizing init with
  | nil => simp
  | cons a t ih => simp [ih]; omega

theorem dpF_succ (fuel : Nat) (n : PyAst) :
    dpF (fuel + 1) n = nodeWeight n + ((children n).map (dpF fuel)).sum := rfl

theorem map_dpF_succ_sum (fuel : Nat) (q : List PyAst) :
    (q.map (dpF (fuel + 1))).sum
      = (q.map nodeWeight).sum + ((q.flatMap children).map (dpF fuel)).sum := by
  induction q with
  | nil => simp
  | cons a t ih =>
    rw [List.map_cons, List.sum_cons, List.flatMap_cons, List.map_append,
      List.sum_append, ih, List.map_cons, List.sum_cons, dpF_succ]
    omega

theorem walkAux_weight_sum (fuel : Nat) :
    ∀ q : List PyAst, astSizeL q ≤ fuel →
      ((walkAux fuel q).map nodeWeight).sum = (q.map (dpF fuel)).sum := by
  induction fuel with
  | zero =>
    intro q hq
    have : q = [] := astSizeL_eq_zero (Nat.le_zero.mp hq)
    subst this; simp [walkAux]
  | succ fuel ih =>
    intro q hq
    match q with
    | [] => simp [walkAux]
    | a :: rest =>
      have hflat : astSizeL ((a :: rest).flatMap children) ≤ fuel := by
        have := flat_children_le (a :: rest)
        simp only [List.length_cons] at this
        omega
      simp only [walkAux, List.map_append, List.sum_append, ih _ hflat,
        map_dpF_succ_sum]

/-- The walk-based cyclomatic count is exactly one more than the structural
decision-point count. -/
theorem cyclomatic_eq_decisionPoints (n : PyAst) :
    cyclomaticComplexity n = 1 + decisionPoints n := by
  have h := walkAux_weight_sum (astSize n) [n] (by simp [astSizeL])
  simp only [cyclomaticComplexity, walk, foldl_add_weight, h, decisionPoints,
    List.map_cons, List.map_nil, List.sum_cons, List.sum_nil, add_zero]

/-- `_cognitive_complexity`: for each direct child, nesting constructs add
`1 + depth` and recurse one level deeper, boolean-operator chains add their
operand count minus one, everything else just recurses. -/
def cogF : Nat → PyAst → Nat → Int
  | 0, _, _ => 0
  | fuel + 1, n, depth =>
    ((children n).map (fun child =>
      match child with
      | .ifStmt .. | .forStmt .. | .whileStmt .. | .exceptHandler .. =>
          (1 + depth : Int) + cogF fuel child (depth + 1)
      | .matchStmt .. =>
          (1 + depth : Int) + cogF fuel child (depth + 1)
      | .boolOp _ values =>
          ((values.length : Int) - 1) + cogF fuel child depth
      | _ => cogF fuel child depth)).sum

/-- One child's contribution inside `_cognitive_complexity`'s loop
(a named copy of the match in `cogF`, for reasoning). -/
def cogChildTerm (fuel : Nat) (depth : Nat) (child : PyAst) : Int :=
  match child with
  | .ifStmt .. | .forStmt .. | .whileStmt .. | .exceptHandler .. =>
      (1 + depth : Int) + cogF fuel child (depth + 1)
  | .matchStmt .. =>
      (1 + depth : Int) + cogF fuel child (depth + 1)
  | .boolOp _ values =>
      ((values.length : Int) - 1) + cogF fuel child depth
  | _ => cogF fuel child depth

theorem cogF_succ (fuel : Nat) (n : PyAst) (depth : Nat) :
    cogF (fuel + 1) n depth
      = ((children n).map (cogChildTerm fuel depth)).sum := rfl

/-- `_cognitive_complexity(node)` with the default starting depth 0. -/
def cognitiveComplexity (n : PyAst) : Int := cogF (astSize n) n 0

/-- `_max_nesting_depth`: conditionals, loops, with/try blocks, handlers and
match statements increase the depth; the result is the maximum over all
children of the reached depth. -/
def mndF : Nat → PyAst → Nat → Nat
  | 0, _, current => current
  | fuel + 1, n, current =>
    ((children n).map (fun child =>
      match child with
      | .ifStmt .. | .forStmt .. | .whileStmt .. | .withStmt .. | .tryStmt ..
      | .exceptHandler .. | .matchStmt .. => mndF fuel child (current + 1)
      | _ => mndF fuel child current)).foldl max current

/-- `_max_nesting_depth(node)` with the default starting depth 0. -/
def maxNestingDepth (n : PyAst) : Nat := mndF (astSize n) n 0

/-! ### Grammar well-formedness

The Python grammar guarantees that a `BoolOp` has at least two operands; the
complexity lower bounds need only that every `BoolOp` is non-empty. -/

/-- Per-node grammar check: boolean operators have at least one operand. -/
def boolOpOK : PyAst → Bool
  | .boolOp _ values => !values.isEmpty
  | _ => true

/-- Fuelled all-nodes check: the node itself, and (given fuel) all its
descendants, pass `boolOpOK`. -/
def wfF : Nat → PyAst → Bool
  | 0, n => boolOpOK n
  | fuel + 1, n => boolOpOK n && (children n).all (wfF fuel)

/-- The tree rooted at `n` contains no empty boolean-operator chain. -/
def WFBoolOps (n : PyAst) : Prop := wfF (astSize n) n = true

instance (n : PyAst) : Decidable (WFBoolOps n) := by
  unfold WFBoolOps; infer_instance

theorem nodeWeight_nonneg {n : PyAst} (h : boolOpOK n = true) :
    0 ≤ nodeWeight n := by
  cases n
  case boolOp op values =>
    have hne : values ≠ [] := by simpa [boolOpOK] using h
    have hlen := List.length_pos.mpr hne
    simp only [nodeWeight]
    omega
  case matchStmt s cs =>
    simp only [nodeWeight]
    exact Int.natCast_nonneg _
  all_goals simp [nodeWeight]

theorem wfF_boolOpOK : ∀ (fuel : Nat) (n : PyAst), wfF fuel n = true →
    boolOpOK n = true := by
  intro fuel n h
  cases fuel <;> simp [wfF] at h <;> tauto

theorem dpF_nonneg : ∀ (fuel : Nat) (n : PyAst), wfF fuel n = true →
    0 ≤ dpF fuel n := by
  intro fuel
  induction fuel with
  | zero => intro n _; simp [dpF]
  | succ fuel ih =>
    intro n h
    simp only [wfF, Bool.and_eq_true, List.all_eq_true] at h
    obtain ⟨hn, hch⟩ := h
    have hsum : 0 ≤ ((children n).map (dpF fuel)).sum := by
      apply List.sum_nonneg
      intro x hx
      obtain ⟨c, hc, rfl⟩ := List.mem_map.mp hx
      exact ih c (hch c hc)
    have := nodeWeight_nonneg hn
    simp only [dpF]; omega

theorem cogChildTerm_nonneg (fuel depth : Nat) (c : PyAst)
    (hok : boolOpOK c = true)
    (h0 : 0 ≤ cogF fuel c depth) (h1 : 0 ≤ cogF fuel c (depth + 1)) :
    0 ≤ cogChildTerm fuel depth c := by
  cases c
  case boolOp op values =>
    have hne : values ≠ [] := by simpa [boolOpOK] using hok
    have hlen := List.length_pos.mpr hne
    simp only [cogChildTerm]
    omega
  all_goals (simp only [cogChildTerm]; omega)

theorem cogF_nonneg : ∀ (fuel : Nat) (n : PyAst) (depth : Nat),
    wfF fuel n = true → 0 ≤ cogF fuel n depth := by
  intro fuel
  induction fuel with
  | zero => intro n depth _; simp [cogF]
  | succ fuel ih =>
    intro n depth h
    simp only [wfF, Bool.and_eq_true, List.all_eq_true] at h
    obtain ⟨_, hch⟩ := h
    rw [cogF_succ]
    apply List.sum_nonneg
    intro x hx
    obtain ⟨c, hc, rfl⟩ := List.mem_map.mp hx
    have hwc := hch c hc
    exact cogChildTerm_nonneg fuel depth c (wfF_boolOpOK fuel c hwc)
      (ih c depth hwc) (ih c (depth + 1) hwc)

/-! ## Unparsing (`ast.unparse` via `_safe_unparse`)

The analyzer only consumes unparsed text of expressions (callee paths,
handler types, decorators, value representations).  `unparse` renders the
expression sub-language; statements are never unparsed by the analyzed code
paths, so they fall to the `_safe_unparse` failure string. -/

/-- Rendering of constant literals, Python `repr` style. -/
def renderConst : PyConst → String
  | .int n => toString n
  | .str s => "'" ++ s ++ "'"
  | .bool true => "True"
  | .bool false => "False"
  | .none => "None"

/-- Fuelled expression renderer. -/
def unparseF : Nat → PyAst → String
  | 0, _ => "<unknown>"
  | fuel + 1, n =>
    match n with
    | .name id => id
    | .attr v a => unparseF fuel v ++ "." ++ a
    | .subscript v i => unparseF fuel v ++ "[" ++ unparseF fuel i ++ "]"
    | .call f args =>
        unparseF fuel f ++ "(" ++ String.intercalate ", " (args.map (unparseF fuel)) ++ ")"
    | .boolOp op values => String.intercalate (" " ++ op ++ " ") (values.map (unparseF fuel))
    | .binOp l op r => unparseF fuel l ++ " " ++ op ++ " " ++ unparseF fuel r
    | .unaryOp op v => op ++ unparseF fuel v
    | .compare l ops comparators =>
        (List.zip ops comparators).foldl
          (fun acc oc => acc ++ " " ++ oc.1 ++ " " ++ unparseF fuel oc.2)
          (unparseF fuel l)
    | .ifExp t b o =>
        unparseF fuel b ++ " if " ++ unparseF fuel t ++ " else " ++ unparseF fuel o
    | .constant c => renderConst c
    | .listLit elts => "[" ++ String.intercalate ", " (elts.map (unparseF fuel)) ++ "]"
    | .tupleLit elts => "(" ++ String.intercalate ", " (elts.map (unparseF fuel)) ++ ")"
    | .setLit elts => "\x7b" ++ String.intercalate ", " (elts.map (unparseF fuel)) ++ "\x7d"
    | .dictLit ks vs =>
        "\x7b" ++ String.intercalate ", "
          ((List.zip ks vs).map (fun kv => unparseF fuel kv.1 ++ ": " ++ unparseF fuel kv.2))
          ++ "\x7d"
    | .yield Option.none => "yield"
    | .yield (Option.some v) => "yield " ++ unparseF fuel v
    | .yieldFrom v => "yield from " ++ unparseF fuel v
    | _ => "<unknown>"

/-- `_safe_unparse` on expression nodes. -/
def unparse (n : PyAst) : String := unparseF (astSize n) n

/-- `_decorator_name`: names and attribute paths are rendered directly,
calls render their function part recursively with unparsed arguments. -/
def decoratorNameF : Nat → PyAst → String
  | 0, _ => "<unknown>"
  | fuel + 1, n =>
    match n with
    | .name id => id
    | .attr v a => decoratorNameF fuel v ++ "." ++ a
    | .call f args =>
        decoratorNameF fuel f ++ "("
          ++ String.intercalate ", " (args.map unparse) ++ ")"
    | _ => unparse n

/-- `_decorator_name(node)`. -/
def decoratorName (n : PyAst) : String := decoratorNameF (astSize n) n

/-! ## Control-flow analysis (`_analyze_control_flow`) -/

/-- `ControlFlowInfo` of the source. -/
structure ControlFlowInfo where
  branch_count : Nat
  exception_types_raised : List String
  exception_types_caught : List String
  has_finally : Bool
  is_generator : Bool
  is_async_generator : Bool
  is_coroutine : Bool
  has_match_case : Bool
  has_for_else : Bool
  has_while_else : Bool
  deriving DecidableEq, Repr

/-- A function definition node together with its fields, as handed to the
per-function analyzers (`ast.FunctionDef` / `ast.AsyncFunctionDef`). -/
structure FuncNode where
  isAsync : Bool := false
  fname : String
  fargs : PyArguments := {}
  body : List PyAst
  decorators : List PyAst := []
  returns : Option String := Option.none
  lineno : Nat := 1
  endLineno : Option Nat := Option.none
  deriving Repr

/-- The AST node of a `FuncNode`. -/
def FuncNode.toAst (f : FuncNode) : PyAst :=
  .functionDef f.isAsync f.fname f.fargs f.body f.decorators f.returns
    f.lineno f.endLineno

/-- Mutable loop state of `_analyze_control_flow`. -/
structure CFState where
  raised : List String := []
  caught : List String := []
  hasFinally : Bool := false
  isGenerator : Bool := false
  isAsyncGenerator : Bool := false
  isCoroutine : Bool := false
  hasMatch : Bool := false
  hasForElse : Bool := false
  hasWhileElse : Bool := false
  branchCount : Nat := 0
  deriving Repr

/-- One iteration of `_analyze_control_flow`'s walk loop: the `isinstance`
chain of the source, in order. -/
def cfStep (s : CFState) (child : PyAst) : CFState :=
  match child with
  | .raiseStmt exc _ =>
    match exc with
    | Option.none => s
    | Option.some e =>
      match e with
      | .call (.name fid) _ => { s with raised := s.raised ++ [fid] }
      | .call (.attr v a) _ => { s with raised := s.raised ++ [unparse (.attr v a)] }
      | .name id => { s with raised := s.raised ++ [id] }
      | _ => { s with raised := s.raised ++ [unparse e] }
  | .exceptHandler etype _ _ =>
    match etype with
    | Option.some t =>
        { s with caught := s.caught ++ [unparse t], branchCount := s.branchCount + 1 }
    | Option.none =>
        { s with caught := s.caught ++ ["BaseException"], branchCount := s.branchCount + 1 }
  | .tryStmt _ _ _ finalbody =>
      if finalbody.isEmpty then s else { s with hasFinally := true }
  | .ifStmt .. => { s with branchCount := s.branchCount + 1 }
  | .ifExp .. => { s with branchCount := s.branchCount + 1 }
  | .forStmt _ _ _ orelse =>
      { s with branchCount := s.branchCount + 1,
               hasForElse := s.hasForElse || !orelse.isEmpty }
  | .whileStmt _ _ orelse =>
      { s with branchCount := s.branchCount + 1,
               hasWhileElse := s.hasWhileElse || !orelse.isEmpty }
  | .matchStmt _ cases =>
      { s with hasMatch := true, branchCount := s.branchCount + cases.length }
  | .yield _ =>
      { s with isGenerator := true,
               isAsyncGenerator := s.isAsyncGenerator || s.isCoroutine }
  | .yieldFrom _ => { s with isGenerator := true }
  | _ => s

/-- `_analyze_control_flow(node)`. -/
def analyzeControlFlow (f : FuncNode) : ControlFlowInfo :=
  let s := (walk f.toAst).foldl cfStep { isCoroutine := f.isAsync }
  { branch_count := s.branchCount,
    exception_types_raised := s.raised.dedup,
    exception_types_caught := s.caught.dedup,
    has_finally := s.hasFinally,
    is_generator := s.isGenerator,
    is_async_generator := s.isAsyncGenerator,
    is_coroutine := s.isCoroutine,
    has_match_case := s.hasMatch,
    has_for_else := s.hasForElse,
    has_while_else := s.hasWhileElse }

/-! ## Data-flow analysis (`_analyze_data_flow`) -/

/-- `DataFlowInfo` of the source. -/
structure DataFlowInfo where
  calls_made : List String
  globals_read : List String
  globals_written : List String
  nonlocals : List String
  args_mutated : List String
  instance_attrs_read : List String
  instance_attrs_written : List String
  is_pure : Bool
  deriving DecidableEq, Repr

/-- `_MUTATION_METHODS` of the source. -/
def mutationMethods : List String :=
  ["append", "extend", "insert", "remove", "pop", "clear", "sort", "reverse",
   "update", "setdefault", "add", "discard"]

/-- Mutable loop state of `_analyze_data_flow`. -/
structure DFState where
  calls : List String := []
  globalsWritten : List String := []
  nonlocalsAcc : List String := []
  argsMutated : List String := []
  instanceRead : List String := []
  instanceWritten : List String := []
  declaredGlobals : List String := []
  declaredNonlocals : List String := []
  hasSideEffects : Bool := false
  deriving Repr

/-- Per-target handling of an `Assign` inside `_analyze_data_flow`. -/
def assignTargetStep (params : List String) (s : DFState) (t : PyAst) : DFState :=
  match t with
  | .attr (.name vid) attrName =>
      if vid == "self" then
        { s with instanceWritten := s.instanceWritten ++ [attrName],
                 hasSideEffects := true }
      else s
  | .name id =>
      if s.declaredGlobals.contains id then
        { s with globalsWritten := s.globalsWritten ++ [id] }
      else s
  | .subscript (.name vid) _ =>
      if params.contains vid then
        { s with argsMutated := s.argsMutated ++ [vid], hasSideEffects := true }
      else s
  | _ => s

/-- One iteration of `_analyze_data_flow`'s main walk loop. -/
def dfStep (params : List String) (s : DFState) (child : PyAst) : DFState :=
  match child with
  | .globalStmt names =>
      { s with declaredGlobals := s.declaredGlobals ++ names, hasSideEffects := true }
  | .nonlocalStmt names =>
      { s with declaredNonlocals := s.declaredNonlocals ++ names,
               nonlocalsAcc := s.nonlocalsAcc ++ names, hasSideEffects := true }
  | .call f _ =>
    let s := { s with calls := s.calls ++ [unparse f] }
    match f with
    | .attr (.name vid) attrName =>
        if params.contains vid && mutationMethods.contains attrName then
          { s with argsMutated := s.argsMutated ++ [vid], hasSideEffects := true }
        else s
    | .attr (.attr (.name vid2) attr2) _ =>
        if vid2 == "self" then { s with instanceRead := s.instanceRead ++ [attr2] }
        else s
    | _ => s
  | .attr (.name vid) attrName =>
      if vid == "self" then { s with instanceRead := s.instanceRead ++ [attrName] }
      else s
  | .assign targets _ _ => targets.foldl (assignTargetStep params) s
  | .augAssign target _ _ =>
    (match target with
     | .attr (.name vid) attrName =>
         if vid == "self" then
           { s with instanceWritten := s.instanceWritten ++ [attrName],
                    hasSideEffects := true }
         else s
     | .name id =>
         if s.declaredGlobals.contains id then
           { s with globalsWritten := s.globalsWritten ++ [id] }
         else s
     | _ => s)
  | _ => s

/-- The second walk of `_analyze_data_flow`: names that are declared global
but never written are recorded as global reads. -/
def globalsReadPass (declaredGlobals globalsWritten : List String)
    (nodes : List PyAst) : List String :=
  nodes.foldl (fun acc child =>
    match child with
    | .name id =>
        if declaredGlobals.contains id && !globalsWritten.contains id then
          acc ++ [id]
        else acc
    | _ => acc) []

/-- Parameter-name set of `_analyze_data_flow` (`args`, vararg, kwarg,
keyword-only, positional-only). -/
def dfParamNames (a : PyArguments) : List String :=
  (a.args.map (·.arg))
    ++ (match a.vararg with | Option.some v => [v.arg] | Option.none => [])
    ++ (match a.kwarg with | Option.some v => [v.arg] | Option.none => [])
    ++ (a.kwonlyargs.map (·.arg))
    ++ (a.posonlyargs.map (·.arg))

/-- `sorted(set(xs))` of the source. -/
def sortedDedup (l : List String) : List String :=
  List.insertionSort (· ≤ ·) l.dedup

/-- `_analyze_data_flow(node)`. -/
def analyzeDataFlow (f : FuncNode) : DataFlowInfo :=
  let params := dfParamNames f.fargs
  let nodes := walk f.toAst
  let s := nodes.foldl (dfStep params) {}
  let gr := globalsReadPass s.declaredGlobals s.globalsWritten nodes
  { calls_made := s.calls.dedup,
    globals_read := gr.dedup,
    globals_written := s.globalsWritten.dedup,
    nonlocals := s.nonlocalsAcc.dedup,
    args_mutated := sortedDedup s.argsMutated,
    instance_attrs_read := sortedDedup s.instanceRead,
    instance_attrs_written := sortedDedup s.instanceWritten,
    is_pure := !s.hasSideEffects && s.calls.isEmpty }

/-! ## Edge-case inference (`_infer_edge_cases`) -/

/-- `EdgeCaseHint` of the source. -/
structure EdgeCaseHint where
  parameter : Option String
  category : String
  description : String
  deriving DecidableEq, Repr

/-- The hints emitted for one declared parameter inside
`_infer_edge_cases`'s loop (receiver names `self`/`cls` are skipped; the
loop covers `args + kwonlyargs + posonlyargs`, so `*args`/`**kwargs` never
reach it). -/
def paramHintBlock (arg : PyArg) : List EdgeCaseHint :=
  if arg.arg == "self" || arg.arg == "cls" then []
  else
    let base :=
      [⟨Option.some arg.arg, "none_input", "Pass None for '" ++ arg.arg ++ "'"⟩,
       ⟨Option.some arg.arg, "empty_input",
        "Pass empty value for '" ++ arg.arg ++ "' (empty string, empty list, etc.)"⟩]
    let annHints : List EdgeCaseHint :=
      match arg.ann with
      | Option.none => []
      | Option.some a0 =>
        if a0 == "" then []  -- Python truthiness of the unparsed text
        else
          (if hasSubstr (strLower a0) "int" || hasSubstr (strLower a0) "float" then
            [⟨Option.some arg.arg, "boundary_value",
              "Pass 0, -1, very large number for '" ++ arg.arg ++ "'"⟩]
           else [])
          ++ (if hasSubstr (strLower a0) "str" then
            [⟨Option.some arg.arg, "boundary_value",
              "Pass empty string, very long string, unicode for '" ++ arg.arg ++ "'"⟩]
           else [])
          ++ (if hasSubstr (strLower a0) "list" || hasSubstr (strLower a0) "set" then
            [⟨Option.some arg.arg, "boundary_value",
              "Pass empty collection, single element, very large collection for '"
                ++ arg.arg ++ "'"⟩]
           else [])
          ++ (if hasSubstr (strLower a0) "bool" then
            [⟨Option.some arg.arg, "boolean_combo",
              "Test both True and False for '" ++ arg.arg ++ "'"⟩]
           else [])
    base ++ annHints
      ++ [⟨Option.some arg.arg, "type_mismatch", "Pass wrong type for '" ++ arg.arg ++ "'"⟩]

/-- `_infer_edge_cases(func_node, control_flow)`. -/
def inferEdgeCases (f : FuncNode) (cf : ControlFlowInfo) : List EdgeCaseHint :=
  ((f.fargs.args ++ f.fargs.kwonlyargs ++ f.fargs.posonlyargs).flatMap paramHintBlock)
    ++ cf.exception_types_raised.map
        (fun e => ⟨Option.none, "exception_path", "Trigger " ++ e ++ " raise path"⟩)
    ++ cf.exception_types_caught.map
        (fun e => ⟨Option.none, "exception_path", "Test " ++ e ++ " exception handling path"⟩)

/-! ## Function analyzer (`_analyze_function`) -/

/-- `ParameterInfo` of the source (`ann` is the unparsed type hint,
`default` the unparsed default expression). -/
structure ParameterInfo where
  name : String
  ann : Option String
  default : Option String
  kind : String
  deriving DecidableEq, Repr

/-- Parameter extraction of `_analyze_function`, including the source's
index arithmetic aligning `defaults` with positional parameters.  (The
source indexes `defaults` without an upper-bound check in the
positional-or-keyword loop; that access is always in range, and the model
uses a total `get?` there.) -/
def buildParameters (a : PyArguments) : List ParameterInfo :=
  let posonlyParams := a.posonlyargs.enum.map (fun p =>
    let i := p.1
    let arg := p.2
    let defaultIdx : Int :=
      (i : Int) - ((a.posonlyargs.length : Int) - (a.defaults.length : Int))
    let default :=
      if 0 ≤ defaultIdx && defaultIdx < (a.defaults.length : Int) then
        a.defaults.get? defaultIdx.toNat
      else Option.none
    ⟨arg.arg, arg.ann, default, "POSITIONAL_ONLY"⟩)
  let numNoDefault : Int := (a.args.length : Int) - (a.defaults.length : Int)
  let argParams := a.args.enum.map (fun p =>
    let i := p.1
    let arg := p.2
    let defaultIdx : Int := (i : Int) - numNoDefault
    let default :=
      if 0 ≤ defaultIdx then a.defaults.get? defaultIdx.toNat else Option.none
    ⟨arg.arg, arg.ann, default, "POSITIONAL_OR_KEYWORD"⟩)
  let varargParams : List ParameterInfo :=
    match a.vararg with
    | Option.some v => [⟨v.arg, v.ann, Option.none, "VAR_POSITIONAL"⟩]
    | Option.none => []
  let kwonlyParams := a.kwonlyargs.enum.map (fun p =>
    let default := (a.kwDefaults.get? p.1).join
    ⟨p.2.arg, p.2.ann, default, "KEYWORD_ONLY"⟩)
  let kwargParams : List ParameterInfo :=
    match a.kwarg with
    | Option.some v => [⟨v.arg, v.ann, Option.none, "VAR_KEYWORD"⟩]
    | Option.none => []
  posonlyParams ++ argParams ++ varargParams ++ kwonlyParams ++ kwargParams

/-- The source's classification of a returned expression in
`return_types_inferred`. -/
def inferredReturnType (v : PyAst) : String :=
  match v with
  | .constant c =>
    (match c with
     | .int _ => "int"
     | .str _ => "str"
     | .bool _ => "bool"
     | .none => "NoneType")
  | .dictLit .. => "dict"
  | .listLit _ => "list"
  | .tupleLit _ => "tuple"
  | .setLit _ => "set"
  | .call f _ => "call:" ++ unparse f
  | .name id => "var:" ++ id
  | _ => "expr:" ++ (unparse v).take 50

/-- All inferred return types over a walk, deduplicated (`list(set(...))`). -/
def returnTypesInferred (nodes : List PyAst) : List String :=
  (nodes.foldl (fun acc child =>
    match child with
    | .returnStmt (Option.some v) => acc ++ [inferredReturnType v]
    | _ => acc) []).dedup

/-- `ComplexityMetrics` of the source. -/
structure ComplexityMetrics where
  cyclomatic : Int
  cognitive : Int
  nesting_depth : Nat
  loc : Int
  deriving DecidableEq, Repr

/-- `FunctionInfo` of the source.  The `source` text slice and the parsed
`DocstringInfo` are outside the verified scope; the raw docstring is kept. -/
structure FunctionInfo where
  qualified_name : String
  name : String
  start_line : Nat
  end_line : Nat
  parameters : List ParameterInfo
  return_ann : Option String
  return_types_inferred : List String
  docstring_raw : Option String
  decorators : List String
  complexity : ComplexityMetrics
  control_flow : ControlFlowInfo
  data_flow : DataFlowInfo
  edge_cases : List EdgeCaseHint
  is_method : Bool
  is_staticmethod : Bool
  is_classmethod : Bool
  is_property : Bool
  is_abstractmethod : Bool
  nested_functions : List String
  deriving DecidableEq, Repr

/-- `ast.get_docstring(node, clean=False)`: the string constant that is the
first statement of the body, if any. -/
def getDocstring (body : List PyAst) : Option String :=
  match body with
  | .exprStmt (.constant (.str s)) :: _ => Option.some s
  | _ => Option.none

/-- Python's `end_lineno or lineno` (`or` treats both `None` and `0` as
falsy). -/
def pyOrNat (o : Option Nat) (d : Nat) : Nat :=
  match o with
  | Option.some e => if e == 0 then d else e
  | Option.none => d

/-- `_analyze_function(node, module_name, class_name, source_lines)`. -/
def analyzeFunction (f : FuncNode) (moduleName : String)
    (className : Option String) : FunctionInfo :=
  let parts :=
    [moduleName]
      ++ (match className with | Option.some c => [c] | Option.none => [])
      ++ [f.fname]
  let ast := f.toAst
  let nodes := walk ast
  let decorators := f.decorators.map decoratorName
  let startLine := f.lineno
  let endLine := pyOrNat f.endLineno f.lineno
  let cf := analyzeControlFlow f
  { qualified_name := String.intercalate "." parts,
    name := f.fname,
    start_line := startLine,
    end_line := endLine,
    parameters := buildParameters f.fargs,
    return_ann := f.returns,
    return_types_inferred := returnTypesInferred nodes,
    docstring_raw := getDocstring f.body,
    decorators := decorators,
    complexity :=
      { cyclomatic := cyclomaticComplexity ast,
        cognitive := cognitiveComplexity ast,
        nesting_depth := maxNestingDepth ast,
        loc := (endLine : Int) - (startLine : Int) + 1 },
    control_flow := cf,
    data_flow := analyzeDataFlow f,
    edge_cases := inferEdgeCases f cf,
    is_method := className.isSome,
    is_staticmethod := decorators.any (fun d => hasSubstr d "staticmethod"),
    is_classmethod := decorators.any (fun d => hasSubstr d "classmethod"),
    is_property := decorators.any (fun d => hasSubstr d "property"),
    is_abstractmethod := decorators.any (fun d => hasSubstr d "abstractmethod"),
    nested_functions := (children ast).foldl (fun acc child =>
      match child with
      | .functionDef _ nm _ _ _ _ _ _ => acc ++ [nm]
      | _ => acc) [] }

/-! ## Node-kind tests used by the statements below -/

/-- Is this node an `ast.Yield`? -/
def isYieldNode : PyAst → Bool
  | .yield _ => true
  | _ => false

/-- Is this node an `ast.YieldFrom`? -/
def isYieldFromNode : PyAst → Bool
  | .yieldFrom _ => true
  | _ => false

/-- Is this node an `ast.Call`? -/
def isCallNode : PyAst → Bool
  | .call .. => true
  | _ => false

/-! ## Characterisation of the control-flow fold -/

theorem cfStep_isCoroutine (s : CFState) (c : PyAst) :
    (cfStep s c).isCoroutine = s.isCoroutine := by
  cases c <;> simp only [cfStep] <;> (repeat' split) <;> rfl

theorem cfFoldl_isCoroutine (l : List PyAst) : ∀ s : CFState,
    (l.foldl cfStep s).isCoroutine = s.isCoroutine := by
  induction l with
  | nil => intro s; rfl
  | cons c t ih => intro s; rw [List.foldl_cons, ih, cfStep_isCoroutine]

theorem cfStep_isGenerator (s : CFState) (c : PyAst) :
    (cfStep s c).isGenerator
      = (s.isGenerator || (isYieldNode c || isYieldFromNode c)) := by
  cases c <;>
    simp only [cfStep, isYieldNode, isYieldFromNode] <;>
    (repeat' split) <;>
    simp

theorem cfFoldl_isGenerator (l : List PyAst) : ∀ s : CFState,
    (l.foldl cfStep s).isGenerator
      = (s.isGenerator || l.any (fun n => isYieldNode n || isYieldFromNode n)) := by
  induction l with
  | nil => intro s; simp
  | cons c t ih =>
    intro s
    rw [List.foldl_cons, ih, cfStep_isGenerator, List.any_cons]
    cases s.isGenerator <;> simp [Bool.or_assoc]

theorem cfStep_isAsyncGenerator (s : CFState) (c : PyAst) :
    (cfStep s c).isAsyncGenerator
      = (s.isAsyncGenerator || (s.isCoroutine && isYieldNode c)) := by
  cases c <;>
    simp only [cfStep, isYieldNode] <;>
    (repeat' split) <;>
    simp

theorem cfFoldl_isAsyncGenerator (l : List PyAst) : ∀ s : CFState,
    (l.foldl cfStep s).isAsyncGenerator
      = (s.isAsyncGenerator || (s.isCoroutine && l.any isYieldNode)) := by
  induction l with
  | nil => intro s; simp
  | cons c t ih =>
    intro s
    rw [List.foldl_cons, ih, cfStep_isAsyncGenerator, cfStep_isCoroutine,
      List.any_cons]
    cases s.isAsyncGenerator <;> cases s.isCoroutine <;> simp

/-! ## Invariants of the data-flow fold -/

/-- Whenever a global write, a parameter mutation, an instance-attribute
write, or a `global` declaration has been recorded, the side-effect flag is
set.  (A recorded global write presupposes an earlier `global` declaration,
which itself sets the flag.) -/
def DFInv (s : DFState) : Prop :=
  (s.globalsWritten ≠ [] ∨ s.argsMutated ≠ [] ∨ s.instanceWritten ≠ []
      ∨ s.declaredGlobals ≠ [])
    → s.hasSideEffects = true

theorem assignTargetStep_inv (p : List String) (s : DFState) (t : PyAst)
    (h : DFInv s) : DFInv (assignTargetStep p s t) := by
  unfold assignTargetStep
  split
  · split
    · intro _; rfl
    · exact h
  · rename_i id
    split
    · rename_i hcont
      intro _
      apply h
      have : s.declaredGlobals ≠ [] := by
        intro hnil; rw [hnil] at hcont; simp at hcont
      exact Or.inr (Or.inr (Or.inr this))
    · exact h
  · split
    · intro _; rfl
    · exact h
  · exact h

theorem dfStep_inv (p : List String) (s : DFState) (c : PyAst)
    (h : DFInv s) : DFInv (dfStep p s c) := by
  unfold dfStep
  split
  · intro _; rfl
  · intro _; rfl
  · -- Call: the shadowed state only extends `calls`
    split
    · split
      · intro _; rfl
      · exact h
    · split
      · exact h
      · exact h
    · exact h
  · split
    · exact h
    · exact h
  · -- Assign: fold over targets
    rename_i targets _ _
    induction targets generalizing s with
    | nil => exact h
    | cons t ts ih => exact ih _ (assignTargetStep_inv p s t h)
  · -- AugAssign
    split
    · split
      · intro _; rfl
      · exact h
    · rename_i id
      split
      · rename_i hcont
        intro _
        apply h
        have : s.declaredGlobals ≠ [] := by
          intro hnil; rw [hnil] at hcont; simp at hcont
        exact Or.inr (Or.inr (Or.inr this))
      · exact h
    · exact h
  · exact h

theorem dfFoldl_inv (p : List String) (l : List PyAst) : ∀ s : DFState,
    DFInv s → DFInv (l.foldl (dfStep p) s) := by
  induction l with
  | nil => intro s h; exact h
  | cons c t ih => intro s h; exact ih _ (dfStep_inv p s c h)

theorem assignTargetStep_calls (p : List String) (s : DFState) (t : PyAst) :
    (assignTargetStep p s t).calls = s.calls := by
  unfold assignTargetStep
  split <;> (repeat' split) <;> rfl

theorem dfStep_calls_mono (p : List String) (s : DFState) (c : PyAst)
    (h : s.calls ≠ []) : (dfStep p s c).calls ≠ [] := by
  unfold dfStep
  split
  · exact h
  · exact h
  · (repeat' split) <;> simp
  · split <;> exact h
  · rename_i targets _ _
    induction targets generalizing s with
    | nil => exact h
    | cons t ts ih =>
      refine ih _ ?_
      rw [assignTargetStep_calls]; exact h
  · (repeat' split) <;> exact h
  · exact h

theorem dfStep_call_calls (p : List String) (s : DFState) (c : PyAst)
    (h : isCallNode c = true) : (dfStep p s c).calls ≠ [] := by
  cases c <;> simp [isCallNode] at h
  simp only [dfStep]
  (repeat' split) <;> simp

theorem dfFoldl_calls (p : List String) (l : List PyAst) : ∀ s : DFState,
    (s.calls ≠ [] ∨ l.any isCallNode = true) →
      (l.foldl (dfStep p) s).calls ≠ [] := by
  induction l with
  | nil =>
    intro s h
    rcases h with h | h
    · exact h
    · simp at h
  | cons c t ih =>
    intro s h
    rw [List.foldl_cons]
    rcases h with h | h
    · exact ih _ (Or.inl (dfStep_calls_mono p s c h))
    · rw [List.any_cons] at h
      rcases Bool.or_eq_true_iff.mp h with hc | ht
      · exact ih _ (Or.inl (dfStep_call_calls p s c hc))
      · exact ih _ (Or.inr ht)

/-! ## Claims C1, C5, C6, C7 -/

/-- Scenario A of the spec: `def f(x): return x if x > 0 else -x`. -/
def scenarioA_f : FuncNode :=
  { fname := "f",
    fargs := { args := [{ arg := "x" }] },
    body := [.returnStmt (Option.some (.ifExp
      (.compare (.name "x") [">"] [.constant (.int 0)])
      (.name "x") (.unaryOp "-" (.name "x"))))],
    lineno := 1, endLineno := Option.some 1 }

/-- C1: for `def f(x): return x if x > 0 else -x` the Function Analyzer
computes cyclomatic complexity exactly 2 with empty raised- and
caught-exception sets, and in general the walk-based cyclomatic count
equals 1 plus the structural number of decision points (conditionals,
loops, exception handlers, with-blocks, assertions, boolean-operator
chains contributing operand count minus one, match arms one per case). -/
theorem c1_cyclomatic_and_scenario_a :
    (∀ n : PyAst, cyclomaticComplexity n = 1 + decisionPoints n)
    ∧ (analyzeFunction scenarioA_f "m" Option.none).complexity.cyclomatic = 2
    ∧ (analyzeFunction scenarioA_f "m" Option.none).control_flow.exception_types_raised = []
    ∧ (analyzeFunction scenarioA_f "m" Option.none).control_flow.exception_types_caught = [] :=
  ⟨cyclomatic_eq_decisionPoints, by decide, by decide, by decide⟩

/-- Parser guarantee on line spans: when an end line is recorded it is not
before the start line. -/
def spanOK (f : FuncNode) : Bool :=
  match f.endLineno with
  | Option.some e => decide (f.lineno ≤ e)
  | Option.none => true

/-- C5: every analyzed function's complexity metrics satisfy
`cyclomatic ≥ 1`, `cognitive ≥ 0`, `nesting_depth ≥ 0` and `loc ≥ 1`,
given the parser's grammar guarantees (no empty boolean-operator chain, end
line not before start line). -/
theorem c5_complexity_invariants (f : FuncNode) (mod : String)
    (cls : Option String) (hwf : WFBoolOps f.toAst) (hspan : spanOK f = true) :
    1 ≤ (analyzeFunction f mod cls).complexity.cyclomatic
    ∧ 0 ≤ (analyzeFunction f mod cls).complexity.cognitive
    ∧ 0 ≤ ((analyzeFunction f mod cls).complexity.nesting_depth : Int)
    ∧ 1 ≤ (analyzeFunction f mod cls).complexity.loc := by
  refine ⟨?_, ?_, ?_, ?_⟩
  · have hcy : (analyzeFunction f mod cls).complexity.cyclomatic
        = cyclomaticComplexity f.toAst := rfl
    rw [hcy, cyclomatic_eq_decisionPoints]
    have := dpF_nonneg (astSize f.toAst) f.toAst hwf
    simp only [decisionPoints]
    omega
  · have hcg : (analyzeFunction f mod cls).complexity.cognitive
        = cogF (astSize f.toAst) f.toAst 0 := rfl
    rw [hcg]
    exact cogF_nonneg _ _ _ hwf
  · exact Int.natCast_nonneg _
  · have hloc : (analyzeFunction f mod cls).complexity.loc
        = ((pyOrNat f.endLineno f.lineno : Int) - (f.lineno : Int) + 1) := rfl
    rw [hloc]
    cases he : f.endLineno with
    | none => simp [pyOrNat]
    | some e =>
      simp only [spanOK, he, decide_eq_true_eq] at hspan
      simp only [pyOrNat]
      split <;> omega

/-- Input for the C5 witness: a one-line function `def w5(): pass`. -/
def c5Witness_f : FuncNode :=
  { fname := "w5", body := [.passStmt], lineno := 1, endLineno := Option.some 1 }

/-- Witness for `c5_complexity_invariants` at a concrete function. -/
theorem c5_complexity_invariants_witness :
    1 ≤ (analyzeFunction c5Witness_f "m" Option.none).complexity.cyclomatic
    ∧ 0 ≤ (analyzeFunction c5Witness_f "m" Option.none).complexity.cognitive
    ∧ 0 ≤ ((analyzeFunction c5Witness_f "m" Option.none).complexity.nesting_depth : Int)
    ∧ 1 ≤ (analyzeFunction c5Witness_f "m" Option.none).complexity.loc :=
  c5_complexity_invariants c5Witness_f "m" Option.none (by decide) (by decide)

/-- Scenario D of the spec: a function with no parameters, no calls and a
single `return 1` statement. -/
def pureReturnOne : FuncNode :=
  { fname := "one", body := [.returnStmt (Option.some (.constant (.int 1)))] }

/-- C6: the `return 1` function is analyzed as pure; every function
containing a call expression is impure; and purity is false whenever the
analysis records a global write, a parameter mutation or an
instance-attribute write. -/
theorem c6_purity (f : FuncNode) :
    (analyzeDataFlow pureReturnOne).is_pure = true
    ∧ ((walk f.toAst).any isCallNode = true → (analyzeDataFlow f).is_pure = false)
    ∧ ((analyzeDataFlow f).globals_written ≠ []
        ∨ (analyzeDataFlow f).args_mutated ≠ []
        ∨ (analyzeDataFlow f).instance_attrs_written ≠ []
       → (analyzeDataFlow f).is_pure = false) := by
  refine ⟨by decide, ?_, ?_⟩
  · intro hcall
    have hne : ((walk f.toAst).foldl (dfStep (dfParamNames f.fargs)) {}).calls ≠ [] :=
      dfFoldl_calls _ _ _ (Or.inr hcall)
    simp only [analyzeDataFlow, Bool.and_eq_false_iff]
    right
    simpa using hne
  · intro hw
    have hinv : DFInv ((walk f.toAst).foldl (dfStep (dfParamNames f.fargs)) {}) := by
      apply dfFoldl_inv
      intro hcontra
      simp [DFState.mk] at hcontra
    have hside :
        ((walk f.toAst).foldl (dfStep (dfParamNames f.fargs)) {}).hasSideEffects = true := by
      apply hinv
      simp only [analyzeDataFlow] at hw
      rcases hw with hw | hw | hw
      · left
        intro hnil
        rw [hnil] at hw
        simp at hw
      · right; left
        intro hnil
        rw [hnil] at hw
        simp [sortedDedup] at hw
      · right; right; left
        intro hnil
        rw [hnil] at hw
        simp [sortedDedup] at hw
    simp only [analyzeDataFlow, hside, Bool.not_true, Bool.false_and]

/-- Input for the C6 witness: a function whose body is a bare call `g()`. -/
def c6WitnessCall : FuncNode :=
  { fname := "c", body := [.exprStmt (.call (.name "g") [])] }

/-- Input for the C6 witness: a function mutating its parameter via
`xs.append(1)`. -/
def c6WitnessMutation : FuncNode :=
  { fname := "mut",
    fargs := { args := [{ arg := "xs" }] },
    body := [.exprStmt (.call (.attr (.name "xs") "append") [.constant (.int 1)])] }

/-- Witness for `c6_purity` at concrete impure functions. -/
theorem c6_purity_witness :
    (analyzeDataFlow c6WitnessCall).is_pure = false
    ∧ (analyzeDataFlow c6WitnessMutation).is_pure = false :=
  ⟨(c6_purity c6WitnessCall).2.1 (by decide),
   (c6_purity c6WitnessMutation).2.2 (Or.inr (Or.inl (by decide)))⟩

/-- C7: an asynchronous function containing a `yield` is flagged both
coroutine and async-generator; an asynchronous function with no
`yield`/`yield from` anywhere is not flagged as a generator. -/
theorem c7_async_generator_flags (f : FuncNode) (hasync : f.isAsync = true) :
    ((walk f.toAst).any isYieldNode = true →
      (analyzeControlFlow f).is_coroutine = true
      ∧ (analyzeControlFlow f).is_async_generator = true)
    ∧ ((walk f.toAst).any (fun n => isYieldNode n || isYieldFromNode n) = false →
      (analyzeControlFlow f).is_generator = false) := by
  constructor
  · intro hy
    have hc := cfFoldl_isCoroutine (walk f.toAst) { isCoroutine := f.isAsync }
    have ha := cfFoldl_isAsyncGenerator (walk f.toAst) { isCoroutine := f.isAsync }
    rw [hasync] at hc ha
    constructor
    · simp [analyzeControlFlow, hasync, hc]
    · simp [analyzeControlFlow, hasync, ha, hy]
  · intro hn
    have hg := cfFoldl_isGenerator (walk f.toAst) { isCoroutine := f.isAsync }
    rw [hasync] at hg
    simp [analyzeControlFlow, hasync, hg, hn]

/-- Input for the C7 witness: `async def agen(): yield`. -/
def c7WitnessYield : FuncNode :=
  { isAsync := true, fname := "agen", body := [.exprStmt (.yield Option.none)] }

/-- Input for the C7 witness: `async def coro(): return`. -/
def c7WitnessNoYield : FuncNode :=
  { isAsync := true, fname := "coro", body := [.returnStmt Option.none] }

/-- Witness for `c7_async_generator_flags` at concrete async functions. -/
theorem c7_async_generator_flags_witness :
    ((analyzeControlFlow c7WitnessYield).is_coroutine = true
      ∧ (analyzeControlFlow c7WitnessYield).is_async_generator = true)
    ∧ (analyzeControlFlow c7WitnessNoYield).is_generator = false :=
  ⟨(c7_async_generator_flags c7WitnessYield rfl).1 (by decide),
   (c7_async_generator_flags c7WitnessNoYield rfl).2 (by decide)⟩

/-! ## Claim C8 (edge-case inference)

`_infer_edge_cases` iterates only over `args + kwonlyargs + posonlyargs`
(`*args` and `**kwargs` parameters never receive hints), skips any
parameter literally named `self` or `cls` (even in free functions), and
emits one exception-path hint per distinct raised name plus one per
distinct caught name (a name both raised and caught yields two). -/

theorem paramHintBlock_mem {a : PyArg} {h : EdgeCaseHint}
    (hm : h ∈ paramHintBlock a) :
    h.parameter = Option.some a.arg ∧ h.category ≠ "exception_path" := by
  unfold paramHintBlock at hm
  split at hm
  · simp at hm
  · rcases List.mem_append.mp hm with hm | hm
    · rcases List.mem_append.mp hm with hm | hm
      · rcases List.mem_cons.mp hm with hm | hm
        · subst hm
          exact ⟨rfl, show ("none_input" : String) ≠ "exception_path" by decide⟩
        · rcases List.mem_cons.mp hm with hm | hm
          · subst hm
            exact ⟨rfl, show ("empty_input" : String) ≠ "exception_path" by decide⟩
          · simp at hm
      · -- the hints keyed off the type hint text
        rcases hann : a.ann with _ | a0
        · simp only [hann] at hm
          simp at hm
        · simp only [hann] at hm
          split at hm
          · simp at hm
          · rcases List.mem_append.mp hm with hm | hm
            · rcases List.mem_append.mp hm with hm | hm
              · rcases List.mem_append.mp hm with hm | hm
                · split at hm
                  · rcases List.mem_singleton.mp hm with hm
                    subst hm
                    exact ⟨rfl,
                      show ("boundary_value" : String) ≠ "exception_path" by decide⟩
                  · simp at hm
                · split at hm
                  · rcases List.mem_singleton.mp hm with hm
                    subst hm
                    exact ⟨rfl,
                      show ("boundary_value" : String) ≠ "exception_path" by decide⟩
                  · simp at hm
              · split at hm
                · rcases List.mem_singleton.mp hm with hm
                  subst hm
                  exact ⟨rfl,
                    show ("boundary_value" : String) ≠ "exception_path" by decide⟩
                · simp at hm
            · split at hm
              · rcases List.mem_singleton.mp hm with hm
                subst hm
                exact ⟨rfl,
                  show ("boolean_combo" : String) ≠ "exception_path" by decide⟩
              · simp at hm
    · rcases List.mem_singleton.mp hm with hm
      subst hm
      exact ⟨rfl, show ("type_mismatch" : String) ≠ "exception_path" by decide⟩

theorem paramHintBlock_has (a : PyArg) (hself : a.arg ≠ "self")
    (hcls : a.arg ≠ "cls") :
    (⟨Option.some a.arg, "none_input",
      "Pass None for '" ++ a.arg ++ "'"⟩ : EdgeCaseHint) ∈ paramHintBlock a
    ∧ (⟨Option.some a.arg, "empty_input",
      "Pass empty value for '" ++ a.arg ++ "' (empty string, empty list, etc.)"⟩
        : EdgeCaseHint) ∈ paramHintBlock a
    ∧ (⟨Option.some a.arg, "type_mismatch",
      "Pass wrong type for '" ++ a.arg ++ "'"⟩ : EdgeCaseHint) ∈ paramHintBlock a := by
  unfold paramHintBlock
  rw [if_neg (by simp [hself, hcls])]
  refine ⟨?_, ?_, ?_⟩ <;> simp [List.mem_append]

/-- Input for the C8 counterexample: `def v(*items): pass` — a declared
parameter that is no receiver but receives no hints. -/
def c8VarargFunc : FuncNode :=
  { fname := "v",
    fargs := { vararg := Option.some { arg := "items" } },
    body := [.passStmt] }

/-- Input for the C8 counterexample: a function that both raises and
catches `ValueError`. -/
def c8RaiseCatchFunc : FuncNode :=
  { fname := "rc",
    body := [.tryStmt
      [.raiseStmt (Option.some (.call (.name "ValueError") [])) Option.none]
      [.exceptHandler (Option.some (.name "ValueError")) Option.none [.passStmt]]
      [] []] }

/-- Input for the C8 counterexample: `def g(self): pass` as a free function
(no class), whose parameter named `self` is skipped although it is not an
implicit receiver. -/
def c8SelfFunc : FuncNode :=
  { fname := "g",
    fargs := { args := [{ arg := "self" }] },
    body := [.passStmt] }

/-- C8 fails as stated: (1) the var-positional parameter `items` is a
declared parameter and no receiver, yet gets no hint at all (in particular
no `none_input` hint); (2) `ValueError`, a single distinct raised-or-caught
exception name, yields two `exception_path` hints, not one; (3) a free
function's parameter literally named `self` is skipped although it is not
an implicit receiver. -/
theorem c8_edge_cases_counterexample :
    ((analyzeFunction c8VarargFunc "m" Option.none).parameters.map
        (fun p => p.name) = ["items"]
      ∧ (analyzeFunction c8VarargFunc "m" Option.none).edge_cases.all
          (fun h => h.parameter != Option.some "items") = true)
    ∧ (((analyzeFunction c8RaiseCatchFunc "m" Option.none).control_flow.exception_types_raised
          ++ (analyzeFunction c8RaiseCatchFunc "m" Option.none).control_flow.exception_types_caught).dedup
        = ["ValueError"]
      ∧ (analyzeFunction c8RaiseCatchFunc "m" Option.none).edge_cases.countP
          (fun h => h.category == "exception_path") = 2)
    ∧ ((analyzeFunction c8SelfFunc "m" Option.none).is_method = false
      ∧ (analyzeFunction c8SelfFunc "m" Option.none).parameters.map
          (fun p => p.name) = ["self"]
      ∧ (analyzeFunction c8SelfFunc "m" Option.none).edge_cases.all
          (fun h => h.parameter != Option.some "self") = true) := by
  refine ⟨⟨by decide, by decide⟩, ⟨by decide, by decide⟩, by decide, by decide, by decide⟩

/-- C8 (amended): for every parameter in the positional-only,
positional-or-keyword and keyword-only lists whose name is not `self` or
`cls`, the inference emits a `none_input`, an `empty_input` and a
`type_mismatch` hint; and it emits one `exception_path` hint per distinct
raised exception name plus one per distinct caught exception name. -/
theorem c8_edge_cases_amended (f : FuncNode) (mod : String)
    (cls : Option String) (p : PyArg)
    (hp : p ∈ f.fargs.args ++ f.fargs.kwonlyargs ++ f.fargs.posonlyargs)
    (hself : p.arg ≠ "self") (hcls : p.arg ≠ "cls") :
    (∃ h ∈ (analyzeFunction f mod cls).edge_cases,
        h.parameter = Option.some p.arg ∧ h.category = "none_input")
    ∧ (∃ h ∈ (analyzeFunction f mod cls).edge_cases,
        h.parameter = Option.some p.arg ∧ h.category = "empty_input")
    ∧ (∃ h ∈ (analyzeFunction f mod cls).edge_cases,
        h.parameter = Option.some p.arg ∧ h.category = "type_mismatch")
    ∧ (analyzeFunction f mod cls).edge_cases.countP
        (fun h => h.category == "exception_path")
      = (analyzeFunction f mod cls).control_flow.exception_types_raised.length
        + (analyzeFunction f mod cls).control_flow.exception_types_caught.length
    ∧ (analyzeFunction f mod cls).control_flow.exception_types_raised.Nodup
    ∧ (analyzeFunction f mod cls).control_flow.exception_types_caught.Nodup := by
  have hec : (analyzeFunction f mod cls).edge_cases
      = inferEdgeCases f (analyzeControlFlow f) := rfl
  have hcf : (analyzeFunction f mod cls).control_flow = analyzeControlFlow f := rfl
  have hblock := paramHintBlock_has p hself hcls
  have hmem : ∀ h : EdgeCaseHint, h ∈ paramHintBlock p →
      h ∈ (analyzeFunction f mod cls).edge_cases := by
    intro h hh
    rw [hec]
    unfold inferEdgeCases
    exact List.mem_append_left _ (List.mem_append_left _
      (List.mem_flatMap.mpr ⟨p, hp, hh⟩))
  refine ⟨⟨_, hmem _ hblock.1, rfl, rfl⟩,
          ⟨_, hmem _ hblock.2.1, rfl, rfl⟩,
          ⟨_, hmem _ hblock.2.2, rfl, rfl⟩, ?_, ?_, ?_⟩
  · rw [hec, hcf]
    unfold inferEdgeCases
    rw [List.countP_append, List.countP_append]
    have h0 : ((f.fargs.args ++ f.fargs.kwonlyargs ++ f.fargs.posonlyargs).flatMap
        paramHintBlock).countP (fun h => h.category == "exception_path") = 0 := by
      rw [List.countP_eq_zero]
      intro h hh
      obtain ⟨a, _, hha⟩ := List.mem_flatMap.mp hh
      have := (paramHintBlock_mem hha).2
      simpa using this
    have h1 : ((analyzeControlFlow f).exception_types_raised.map
        (fun e => (⟨Option.none, "exception_path",
          "Trigger " ++ e ++ " raise path"⟩ : EdgeCaseHint))).countP
        (fun h => h.category == "exception_path")
        = (analyzeControlFlow f).exception_types_raised.length := by
      rw [List.countP_map]
      apply List.countP_eq_length.mpr
      intro a _
      rfl
    have h2 : ((analyzeControlFlow f).exception_types_caught.map
        (fun e => (⟨Option.none, "exception_path",
          "Test " ++ e ++ " exception handling path"⟩ : EdgeCaseHint))).countP
        (fun h => h.category == "exception_path")
        = (analyzeControlFlow f).exception_types_caught.length := by
      rw [List.countP_map]
      apply List.countP_eq_length.mpr
      intro a _
      rfl
    rw [h0, h1, h2]
    omega
  · rw [hcf]
    exact List.nodup_dedup _
  · rw [hcf]
    exact List.nodup_dedup _

/-- Input for the C8 witness: `def w8(x: int, n): raise ValueError()`. -/
def c8WitnessFunc : FuncNode :=
  { fname := "w8",
    fargs := { args := [{ arg := "x", ann := Option.some "int" }, { arg := "n" }] },
    body := [.raiseStmt (Option.some (.call (.name "ValueError") [])) Option.none] }

/-- Witness for `c8_edge_cases_amended` at a concrete function and
parameter. -/
theorem c8_edge_cases_amended_witness :
    (∃ h ∈ (analyzeFunction c8WitnessFunc "m" Option.none).edge_cases,
        h.parameter = Option.some "x" ∧ h.category = "none_input")
    ∧ (∃ h ∈ (analyzeFunction c8WitnessFunc "m" Option.none).edge_cases,
        h.parameter = Option.some "x" ∧ h.category = "empty_input")
    ∧ (∃ h ∈ (analyzeFunction c8WitnessFunc "m" Option.none).edge_cases,
        h.parameter = Option.some "x" ∧ h.category = "type_mismatch")
    ∧ (analyzeFunction c8WitnessFunc "m" Option.none).edge_cases.countP
        (fun h => h.category == "exception_path")
      = (analyzeFunction c8WitnessFunc "m" Option.none).control_flow.exception_types_raised.length
        + (analyzeFunction c8WitnessFunc "m" Option.none).control_flow.exception_types_caught.length
    ∧ (analyzeFunction c8WitnessFunc "m" Option.none).control_flow.exception_types_raised.Nodup
    ∧ (analyzeFunction c8WitnessFunc "m" Option.none).control_flow.exception_types_caught.Nodup :=
  c8_edge_cases_amended c8WitnessFunc "m" Option.none
    { arg := "x", ann := Option.some "int" } (by decide) (by decide) (by decide)

/-! ## The repository filesystem and import classification
(`_get_local_packages`, `_classify_import`)

The filesystem is a finite tree; paths are component lists relative to the
repository root.  `_analyze_module` always hands `_classify_import` a file
under the root, so the source's upward walk (which stops at the repository
root or the filesystem root) is modelled on root-relative paths, stopping
at the empty path. -/

/-- A file-system tree: named files and directories. -/
inductive FSTree where
  | file (name : String)
  | dir (name : String) (entries : List FSTree)
  deriving Repr

/-- The name of a file-system entry. -/
def FSTree.nameOf : FSTree → String
  | .file n => n
  | .dir n _ => n

/-- Find the entry with the given name among a directory's entries. -/
def findChild (nm : String) : List FSTree → Option FSTree
  | [] => Option.none
  | e :: es => if e.nameOf == nm then Option.some e else findChild nm es

/-- Resolve a root-relative component path. -/
def lookupPath : List String → FSTree → Option FSTree
  | [], t => Option.some t
  | c :: rest, .dir _ entries =>
    (match findChild c entries with
     | Option.some t' => lookupPath rest t'
     | Option.none => Option.none)
  | _ :: _, .file _ => Option.none

/-- `Path.is_dir()` on a root-relative path. -/
def isDirAt (root : FSTree) (path : List String) : Bool :=
  match lookupPath path root with
  | Option.some (.dir _ _) => true
  | _ => false

/-- `Path.is_file()` on a root-relative path. -/
def isFileAt (root : FSTree) (path : List String) : Bool :=
  match lookupPath path root with
  | Option.some (.file _) => true
  | _ => false

/-- The excluded directory names of `_get_local_packages`. -/
def excludeDirs : List String :=
  ["node_modules", ".venv", "venv", "__pycache__", ".git", ".tox",
   ".mypy_cache", "env", "dist", "build"]

/-- `(p / "__init__.py").exists()`. -/
def hasChildNamed (entries : List FSTree) (nm : String) : Bool :=
  entries.any (fun e => e.nameOf == nm)

/-- `_get_local_packages(repo_root)`: top-level `.py` stems, top-level
packages (directories with a package marker, excluded names skipped), and
one level of nested packages.  The cache keyed by root is modelled away by
purity. -/
def localPackages (root : FSTree) : List String :=
  match root with
  | .file _ => []
  | .dir _ entries =>
    entries.flatMap (fun f =>
      match f with
      | .file nm => if pySuffix nm == ".py" then [pyStem nm] else []
      | .dir dnm sub =>
        if excludeDirs.contains dnm then []
        else
          (if hasChildNamed sub "__init__.py" then [dnm] else [])
          ++ sub.flatMap (fun s =>
              match s with
              | .dir snm ssub =>
                if !excludeDirs.contains snm && hasChildNamed ssub "__init__.py"
                then [snm] else []
              | .file _ => []))

/-- The upward walk of `_classify_import`, fuelled by the path length: probe
each ancestor directory (down to, but excluding, the repository root) for a
directory or module file named after the import's top segment. -/
def probeUpF : Nat → FSTree → List String → String → Bool
  | 0, _, _, _ => false
  | fuel + 1, root, cur, top =>
    match cur with
    | [] => false
    | _ :: _ =>
      if isDirAt root (cur ++ [top]) || isFileAt root (cur ++ [top ++ ".py"]) then
        true
      else probeUpF fuel root cur.dropLast top

/-- The `while current != repo_root` loop of `_classify_import`. -/
def probeUp (root : FSTree) (cur : List String) (top : String) : Bool :=
  probeUpF cur.length root cur top

/-- `_classify_import(name, repo_root, module_path)`: stdlib set first, then
the cached local-package set, then a probe of the module's own directory,
then the upward walk.  The ambient interpreter's stdlib name set is a
parameter. -/
def classifyImport (stdlib : List String) (root : FSTree)
    (modulePath : List String) (name : String) : String :=
  let top := (splitDots name).headD ""
  if stdlib.contains top then "stdlib"
  else if (localPackages root).contains top then "local"
  else
    let parent := modulePath.dropLast
    if isDirAt root (parent ++ [top]) || isFileAt root (parent ++ [top ++ ".py"]) then
      "local"
    else if probeUp root parent top then "local"
    else "third_party"

/-- Scenario B's repository: `mypkg/__init__.py`, `mypkg/sub/__init__.py`,
`mypkg/sub/x.py`, and a top-level `main.py`. -/
def scenarioB_fs : FSTree :=
  .dir "repo"
    [.dir "mypkg"
      [.file "__init__.py",
       .dir "sub" [.file "__init__.py", .file "x.py"]],
     .file "main.py"]

/-- C3: the Import Classifier always returns exactly one of the three
labels, checks the stdlib set first and the cached local-package set
second; `import os` is stdlib, `import requests` (no local package of that
name) is third_party, and `from mypkg.sub import x` with `mypkg/__init__`
under the root is local. -/
theorem c3_import_classification (stdlib : List String) (root : FSTree)
    (modPath : List String) (nm : String) :
    (classifyImport stdlib root modPath nm = "stdlib"
      ∨ classifyImport stdlib root modPath nm = "local"
      ∨ classifyImport stdlib root modPath nm = "third_party")
    ∧ (stdlib.contains ((splitDots nm).headD "") = true →
        classifyImport stdlib root modPath nm = "stdlib")
    ∧ (stdlib.contains ((splitDots nm).headD "") = false →
        (localPackages root).contains ((splitDots nm).headD "") = true →
        classifyImport stdlib root modPath nm = "local")
    ∧ (stdlib.contains "os" = true →
        classifyImport stdlib scenarioB_fs ["main.py"] "os" = "stdlib")
    ∧ (stdlib.contains "requests" = false →
        classifyImport stdlib scenarioB_fs ["main.py"] "requests" = "third_party")
    ∧ (stdlib.contains "mypkg" = false →
        classifyImport stdlib scenarioB_fs ["main.py"] "mypkg.sub" = "local") := by
  refine ⟨?_, ?_, ?_, ?_, ?_, ?_⟩
  · unfold classifyImport
    dsimp only
    split_ifs <;> simp
  · intro h
    simp only [classifyImport, h]
    simp
  · intro h1 h2
    simp only [classifyImport, h1, h2]
    simp
  · intro h
    have htop : ((splitDots "os").headD "") = "os" := rfl
    simp only [classifyImport, htop, h]
    simp
  · intro h
    have htop : ((splitDots "requests").headD "") = "requests" := rfl
    simp only [classifyImport, htop, h]
    simp only [Bool.false_eq_true, if_false]
    decide
  · intro h
    have htop : ((splitDots "mypkg.sub").headD "") = "mypkg" := rfl
    simp only [classifyImport, htop, h]
    simp only [Bool.false_eq_true, if_false]
    decide

/-- Witness for `c3_import_classification` at a concrete stdlib name set. -/
theorem c3_import_classification_witness :
    classifyImport ["os", "sys", "json"] scenarioB_fs ["main.py"] "os" = "stdlib"
    ∧ classifyImport ["os", "sys", "json"] scenarioB_fs ["main.py"] "requests"
        = "third_party"
    ∧ classifyImport ["os", "sys", "json"] scenarioB_fs ["main.py"] "mypkg.sub"
        = "local" :=
  ⟨(c3_import_classification ["os", "sys", "json"] scenarioB_fs ["main.py"] "os").2.2.2.1
      (by decide),
   (c3_import_classification ["os", "sys", "json"] scenarioB_fs ["main.py"] "requests").2.2.2.2.1
      (by decide),
   (c3_import_classification ["os", "sys", "json"] scenarioB_fs ["main.py"] "mypkg.sub").2.2.2.2.2
      (by decide)⟩

/-! ## Class analyzer (`_analyze_class`) -/

/-- One attribute entry (the source uses a plain dict with keys
`name`/`type`/`value`). -/
structure AttrEntry where
  aname : String
  atype : Option String
  avalue : Option String
  deriving DecidableEq, Repr

/-- The method groups of `ClassInfo.methods`, in the dict's insertion order
(`public`, `private`, `dunder`, `static`, `class_`, `property`).  Field
names carry an `M` suffix because `private` is reserved. -/
structure MethodGroups where
  publicM : List FunctionInfo := []
  privateM : List FunctionInfo := []
  dunderM : List FunctionInfo := []
  staticM : List FunctionInfo := []
  classM : List FunctionInfo := []
  propertyM : List FunctionInfo := []
  deriving DecidableEq, Repr

/-- `methods.values()` flattened, in the dict's insertion order. -/
def MethodGroups.valuesOrder (m : MethodGroups) : List FunctionInfo :=
  m.publicM ++ m.privateM ++ m.dunderM ++ m.staticM ++ m.classM ++ m.propertyM

/-- `ClassInfo` of the source (the `source` text slice is outside the
verified scope). -/
structure ClassInfo where
  qualified_name : String
  name : String
  start_line : Nat
  end_line : Nat
  base_classes : List String
  docstring : Option String
  init_parameters : List ParameterInfo
  instance_attributes : List AttrEntry
  class_attributes : List AttrEntry
  methods : MethodGroups
  abstract_methods : List String
  decorators : List String
  is_dataclass : Bool
  is_pydantic_model : Bool
  deriving DecidableEq, Repr

/-- A class definition node with its fields (`ast.ClassDef`). -/
structure ClassNode where
  cname : String
  bases : List PyAst := []
  body : List PyAst
  decorators : List PyAst := []
  lineno : Nat := 1
  endLineno : Option Nat := Option.none
  deriving Repr

/-- The AST node of a `ClassNode`. -/
def ClassNode.toAst (c : ClassNode) : PyAst :=
  .classDef c.cname c.bases c.body c.decorators c.lineno c.endLineno

/-- Instance attributes harvested from `self.x = ...` /
`self.x: T = ...` inside `__init__` (a walk over the whole method). -/
def initInstanceAttrs (initAst : PyAst) : List AttrEntry :=
  (walk initAst).foldl (fun acc sub =>
    match sub with
    | .assign targets value _ =>
      acc ++ targets.filterMap (fun t =>
        match t with
        | .attr (.name vid) attrName =>
          if vid == "self" then
            Option.some ⟨attrName, Option.none, Option.some (unparse value)⟩
          else Option.none
        | _ => Option.none)
    | .annAssign (.attr (.name vid) attrName) ann v _ =>
      if vid == "self" then acc ++ [⟨attrName, Option.some ann, v.map unparse⟩]
      else acc
    | _ => acc) []

/-- Accumulator of `_analyze_class`'s child loop. -/
structure ClassAcc where
  classAttrs : List AttrEntry := []
  instanceAttrs : List AttrEntry := []
  initParams : List ParameterInfo := []
  groups : MethodGroups := {}
  abstract : List String := []
  deriving Repr

/-- One iteration of `_analyze_class`'s loop over `iter_child_nodes`. -/
def classChildStep (moduleName : String) (cname : String)
    (st : ClassAcc) (child : PyAst) : ClassAcc :=
  match child with
  | .assign targets value _ =>
    { st with classAttrs := st.classAttrs ++ targets.filterMap (fun t =>
        match t with
        | .name id => Option.some ⟨id, Option.none, Option.some (unparse value)⟩
        | _ => Option.none) }
  | .annAssign (.name id) ann v _ =>
    { st with classAttrs := st.classAttrs ++ [⟨id, Option.some ann, v.map unparse⟩] }
  | .functionDef isAsync nm fargs body decs rets ln eln =>
    let fnode : FuncNode := ⟨isAsync, nm, fargs, body, decs, rets, ln, eln⟩
    let fi := analyzeFunction fnode moduleName (Option.some cname)
    let st :=
      if nm == "__init__" then
        { st with initParams := fi.parameters,
                  instanceAttrs := st.instanceAttrs ++ initInstanceAttrs fnode.toAst }
      else st
    let st :=
      if fi.is_abstractmethod then { st with abstract := st.abstract ++ [nm] }
      else st
    if fi.is_staticmethod then
      { st with groups := { st.groups with staticM := st.groups.staticM ++ [fi] } }
    else if fi.is_classmethod then
      { st with groups := { st.groups with classM := st.groups.classM ++ [fi] } }
    else if fi.is_property then
      { st with groups := { st.groups with propertyM := st.groups.propertyM ++ [fi] } }
    else if strStartsWith nm "__" && strEndsWith nm "__" then
      { st with groups := { st.groups with dunderM := st.groups.dunderM ++ [fi] } }
    else if strStartsWith nm "_" then
      { st with groups := { st.groups with privateM := st.groups.privateM ++ [fi] } }
    else
      { st with groups := { st.groups with publicM := st.groups.publicM ++ [fi] } }
  | _ => st

/-- `_analyze_class(node, module_name, source_lines)`. -/
def analyzeClass (c : ClassNode) (moduleName : String) : ClassInfo :=
  let decorators := c.decorators.map decoratorName
  let baseClasses := c.bases.map unparse
  let st := (children c.toAst).foldl (classChildStep moduleName c.cname) {}
  { qualified_name := moduleName ++ "." ++ c.cname,
    name := c.cname,
    start_line := c.lineno,
    end_line := pyOrNat c.endLineno c.lineno,
    base_classes := baseClasses,
    docstring := getDocstring c.body,
    init_parameters := st.initParams,
    instance_attributes := st.instanceAttrs,
    class_attributes := st.classAttrs,
    methods := st.groups,
    abstract_methods := st.abstract,
    decorators := decorators,
    is_dataclass := decorators.any (fun d => hasSubstr d "dataclass"),
    is_pydantic_model := baseClasses.any
      (fun b => b == "BaseModel" || b == "BaseSettings") }

/-! ## Module analyzer (`_analyze_module`) -/

/-- `ImportInfo` of the source (`aliasName` models the `alias` field,
whose name is reserved here). -/
structure ImportInfo where
  name : String
  aliasName : Option String
  category : String
  is_conditional : Bool := false
  line : Nat := 0
  deriving DecidableEq, Repr

/-- `ModuleVariable` of the source. -/
structure ModuleVariable where
  name : String
  type_ann : Option String
  value_repr : Option String
  is_constant : Bool
  line : Nat
  deriving DecidableEq, Repr

/-- `ModuleInfo` of the source. -/
structure ModuleInfo where
  path : String
  import_name : String
  docstring : Option String
  imports : List ImportInfo
  module_variables : List ModuleVariable
  functions : List FunctionInfo
  classes : List ClassInfo
  all_exports : Option (List String)
  has_main_block : Bool
  errors : List String
  deriving DecidableEq, Repr

/-- The outcome of reading and parsing one file: the three branches of
`_analyze_module` (unreadable file, `SyntaxError` from `ast.parse`, or a
parsed module body). -/
inductive PyFileContent where
  | unreadable (msg : String)
  | syntaxError (msg : String)
  | parsed (body : List PyAst)
  deriving Repr

/-- Does the shorter list lead the longer one (`Path.relative_to`
succeeds)? -/
def listStartsWith : List String → List String → Bool
  | _, [] => true
  | [], _ :: _ => false
  | a :: as', b :: bs => a == b && listStartsWith as' bs

/-- The per-root loop of `_resolve_import_name`. -/
def resolveGo : List (List String) → List String → String
  | [], relPath => pyStem (relPath.getLastD "")
  | root :: rest, relPath =>
    if listStartsWith relPath root then
      match relPath.drop root.length with
      | [] => resolveGo rest relPath
      | rel =>
        let parts := rel.dropLast ++ [pyStem (rel.getLastD "")]
        let parts := if parts.getLastD "" == "__init__" then parts.dropLast else parts
        if parts.isEmpty then resolveGo rest relPath
        else String.intercalate "." parts
    else resolveGo rest relPath

/-- `_resolve_import_name(file_path, import_roots)`: roots longest first,
strip the first matching root, drop the `.py` suffix and a trailing
`__init__`; fall back to the bare stem. -/
def resolveImportName (relPath : List String) (roots : List (List String)) : String :=
  resolveGo (List.insertionSort (fun a b : List String => b.length ≤ a.length) roots)
    relPath

/-- The walk of a parsed module (`ast.walk(tree)` without the `Module`
node itself, which matches no `isinstance` test). -/
def walkModule (body : List PyAst) : List PyAst := walkAux (astSizeL body) body

/-- Import-statement line numbers inside `try` blocks whose handlers catch
`ImportError`/`ModuleNotFoundError` (the source marks imports on those
lines as conditional). -/
def conditionalImportLines (nodes : List PyAst) : List Nat :=
  nodes.foldl (fun acc n =>
    match n with
    | .tryStmt b handlers o fb =>
      if handlers.any (fun h =>
          match h with
          | .exceptHandler (Option.some t) _ _ =>
            unparse t == "ImportError" || unparse t == "ModuleNotFoundError"
          | _ => false) then
        acc ++ (walk (.tryStmt b handlers o fb)).filterMap (fun sub =>
          match sub with
          | .importStmt _ ln => Option.some ln
          | .importFrom _ _ ln => Option.some ln
          | _ => Option.none)
      else acc
    | _ => acc) []

/-- `_analyze_module(file_path, repo_root, import_roots)`.  Reading and
parsing are abstracted by `PyFileContent`; per-construct analysis is total
in the model, so the per-function/per-class `except` bookkeeping
contributes no errors. -/
def analyzeModule (stdlib : List String) (root : FSTree)
    (importRoots : List (List String)) (relPath : List String)
    (content : PyFileContent) : ModuleInfo :=
  let path := String.intercalate "/" relPath
  let importName :=
    if importRoots.isEmpty then
      String.intercalate "." (relPath.dropLast ++ [pyStem (relPath.getLastD "")])
    else resolveImportName relPath importRoots
  match content with
  | .unreadable msg =>
    ⟨path, importName, Option.none, [], [], [], [], Option.none, false,
     ["Could not read file: " ++ msg]⟩
  | .syntaxError msg =>
    ⟨path, importName, Option.none, [], [], [], [], Option.none, false,
     ["SyntaxError: " ++ msg]⟩
  | .parsed body =>
    let nodes := walkModule body
    let importsRaw := nodes.foldl (fun acc n =>
      match n with
      | .importStmt names line =>
        acc ++ names.map (fun al =>
          (⟨al.aname, al.asname, classifyImport stdlib root relPath al.aname,
            false, line⟩ : ImportInfo))
      | .importFrom module names line =>
        acc ++ names.map (fun al =>
          let mod := module.getD ""
          (⟨(if mod == "" then al.aname else mod ++ "." ++ al.aname), al.asname,
            classifyImport stdlib root relPath (if mod == "" then al.aname else mod),
            false, line⟩ : ImportInfo))
      | _ => acc) []
    let condLines := conditionalImportLines nodes
    let imports := importsRaw.map (fun imp =>
      if condLines.contains imp.line then { imp with is_conditional := true }
      else imp)
    let moduleVars := body.foldl (fun acc n =>
      match n with
      | .assign targets value line =>
        acc ++ targets.filterMap (fun t =>
          match t with
          | .name id =>
            Option.some (⟨id, Option.none, Option.some ((unparse value).take 200),
              pyIsUpper id || (strStartsWith id "_" && pyIsUpper (id.drop 1)),
              line⟩ : ModuleVariable)
          | _ => Option.none)
      | .annAssign (.name id) ann v line =>
        acc ++ [(⟨id, Option.some ann, v.map (fun x => (unparse x).take 200),
          pyIsUpper id, line⟩ : ModuleVariable)]
      | _ => acc) []
    let allExports := body.foldl (fun acc n =>
      match n with
      | .assign targets value _ =>
        if targets.any (fun t =>
            match t with
            | .name id => id == "__all__"
            | _ => false) then
          match value with
          | .listLit elts => Option.some (elts.map unparse)
          | .tupleLit elts => Option.some (elts.map unparse)
          | _ => acc
        else acc
      | _ => acc) Option.none
    let hasMain := body.any (fun n =>
      match n with
      | .ifStmt test _ _ =>
        hasSubstr (unparse test) "__name__" && hasSubstr (unparse test) "__main__"
      | _ => false)
    let functions := body.filterMap (fun n =>
      match n with
      | .functionDef isAsync nm fargs fbody decs rets ln eln =>
        Option.some (analyzeFunction ⟨isAsync, nm, fargs, fbody, decs, rets, ln, eln⟩
          importName Option.none)
      | _ => Option.none)
    let classes := body.filterMap (fun n =>
      match n with
      | .classDef nm bases cbody decs ln eln =>
        Option.some (analyzeClass ⟨nm, bases, cbody, decs, ln, eln⟩ importName)
      | _ => Option.none)
    ⟨path, importName, getDocstring body, imports, moduleVars, functions, classes,
     allExports, hasMain, []⟩

/-! ## Claim C2 (module-analyzer error containment) -/

/-- Did `ast.parse` raise a `SyntaxError` for this file? -/
def isSyntaxErrorContent : PyFileContent → Bool
  | .syntaxError _ => true
  | _ => false

/-- Did the file read and parse successfully? -/
def isParsedContent : PyFileContent → Bool
  | .parsed _ => true
  | _ => false

/-- Is this node a (possibly async) function definition? -/
def isFuncDefNode : PyAst → Bool
  | .functionDef .. => true
  | _ => false

/-- Is this node a class definition? -/
def isClassDefNode : PyAst → Bool
  | .classDef .. => true
  | _ => false

theorem length_filterMap_eq_filter {α β : Type} (g : α → Option β) (p : α → Bool)
    (hgp : ∀ a, (g a).isSome = p a) (l : List α) :
    (l.filterMap g).length = (l.filter p).length := by
  induction l with
  | nil => rfl
  | cons a t ih =>
    have ha := hgp a
    cases hg : g a with
    | none =>
      rw [hg] at ha; simp at ha
      simp [List.filterMap_cons, hg, List.filter_cons, ← ha, ih]
    | some b =>
      rw [hg] at ha; simp at ha
      simp [List.filterMap_cons, hg, List.filter_cons, ← ha, ih]

theorem analyzeModule_parsed_errors (stdlib : List String) (root : FSTree)
    (roots : List (List String)) (relPath : List String) (body : List PyAst) :
    (analyzeModule stdlib root roots relPath (.parsed body)).errors = [] := rfl

theorem analyzeModule_errorsEmpty_eq (stdlib : List String) (root : FSTree)
    (roots : List (List String)) (fc : List String × PyFileContent) :
    (analyzeModule stdlib root roots fc.1 fc.2).errors.isEmpty
      = isParsedContent fc.2 := by
  obtain ⟨rp, content⟩ := fc
  cases content <;> rfl

/-- C2: an unreadable or syntax-error file yields a `ModuleInfo` with
exactly one descriptive error and all other collections empty (the analyzer
returns instead of raising); consequently ten files of which one has a
syntax error and nine parse yield ten modules, nine of them error-free with
fully populated function and class data. -/
theorem c2_module_error_containment (stdlib : List String) (root : FSTree)
    (roots : List (List String)) (relPath : List String) (msg : String)
    (files : List (List String × PyFileContent))
    (hlen : files.length = 10)
    (hsyn : (files.filter (fun fc => isSyntaxErrorContent fc.2)).length = 1)
    (hpar : (files.filter (fun fc => isParsedContent fc.2)).length = 9) :
    ((analyzeModule stdlib root roots relPath (.unreadable msg)).errors
        = ["Could not read file: " ++ msg]
      ∧ (analyzeModule stdlib root roots relPath (.unreadable msg)).imports = []
      ∧ (analyzeModule stdlib root roots relPath (.unreadable msg)).module_variables = []
      ∧ (analyzeModule stdlib root roots relPath (.unreadable msg)).functions = []
      ∧ (analyzeModule stdlib root roots relPath (.unreadable msg)).classes = [])
    ∧ ((analyzeModule stdlib root roots relPath (.syntaxError msg)).errors
        = ["SyntaxError: " ++ msg]
      ∧ (analyzeModule stdlib root roots relPath (.syntaxError msg)).imports = []
      ∧ (analyzeModule stdlib root roots relPath (.syntaxError msg)).module_variables = []
      ∧ (analyzeModule stdlib root roots relPath (.syntaxError msg)).functions = []
      ∧ (analyzeModule stdlib root roots relPath (.syntaxError msg)).classes = [])
    ∧ (files.map (fun fc => analyzeModule stdlib root roots fc.1 fc.2)).length = 10
    ∧ ((files.map (fun fc => analyzeModule stdlib root roots fc.1 fc.2)).filter
        (fun m => m.errors.isEmpty)).length = 9
    ∧ (∀ fc ∈ files, ∀ body : List PyAst, fc.2 = PyFileContent.parsed body →
        (analyzeModule stdlib root roots fc.1 fc.2).errors = []
        ∧ (analyzeModule stdlib root roots fc.1 fc.2).functions.length
            = (body.filter isFuncDefNode).length
        ∧ (analyzeModule stdlib root roots fc.1 fc.2).classes.length
            = (body.filter isClassDefNode).length) := by
  refine ⟨⟨rfl, rfl, rfl, rfl, rfl⟩, ⟨rfl, rfl, rfl, rfl, rfl⟩, ?_, ?_, ?_⟩
  · simp [hlen]
  · rw [List.filter_map, List.length_map]
    calc (files.filter ((fun m : ModuleInfo => m.errors.isEmpty)
            ∘ (fun fc => analyzeModule stdlib root roots fc.1 fc.2))).length
        = (files.filter (fun fc => isParsedContent fc.2)).length := by
          congr 1
          apply List.filter_congr
          intro fc _
          exact analyzeModule_errorsEmpty_eq stdlib root roots fc
      _ = 9 := hpar
  · intro fc _ body hbody
    obtain ⟨rp, content⟩ := fc
    simp only at hbody
    subst hbody
    refine ⟨rfl, ?_, ?_⟩
    · exact length_filterMap_eq_filter _ _ (fun n => by cases n <;> rfl) body
    · exact length_filterMap_eq_filter _ _ (fun n => by cases n <;> rfl) body

/-- The ten files of the C2 witness: nine tiny valid modules and one with a
syntax error. -/
def c2WitnessFiles : List (List String × PyFileContent) :=
  [(["a1.py"], .parsed [.functionDef false "f1" {} [.passStmt] [] Option.none 1 (Option.some 1)]),
   (["a2.py"], .parsed [.functionDef false "f2" {} [.passStmt] [] Option.none 1 (Option.some 1)]),
   (["a3.py"], .parsed [.classDef "C3" [] [.passStmt] [] 1 (Option.some 1)]),
   (["a4.py"], .parsed [.passStmt]),
   (["a5.py"], .parsed []),
   (["a6.py"], .parsed [.functionDef false "f6" {} [.returnStmt (Option.some (.constant (.int 6)))] [] Option.none 1 (Option.some 1)]),
   (["a7.py"], .parsed [.assign [.name "X"] (.constant (.int 7)) 1]),
   (["a8.py"], .parsed [.functionDef true "f8" {} [.passStmt] [] Option.none 1 (Option.some 1)]),
   (["a9.py"], .parsed [.classDef "C9" [] [.functionDef false "m" {} [.passStmt] [] Option.none 2 (Option.some 2)] [] 1 (Option.some 2)]),
   (["bad.py"], .syntaxError "invalid syntax (bad.py, line 1)")]

/-- Witness for `c2_module_error_containment` at a concrete ten-file
repository. -/
theorem c2_module_error_containment_witness :
    (analyzeModule [] (.dir "repo" []) [] ["x.py"] (.syntaxError "boom")).errors
        = ["SyntaxError: boom"]
    ∧ (c2WitnessFiles.map
        (fun fc => analyzeModule [] (.dir "repo" []) [] fc.1 fc.2)).length = 10
    ∧ ((c2WitnessFiles.map
        (fun fc => analyzeModule [] (.dir "repo" []) [] fc.1 fc.2)).filter
        (fun m => m.errors.isEmpty)).length = 9 :=
  ⟨(c2_module_error_containment [] (.dir "repo" []) [] ["x.py"] "boom"
      c2WitnessFiles (by decide) (by decide) (by decide)).2.1.1,
   (c2_module_error_containment [] (.dir "repo" []) [] ["x.py"] "boom"
      c2WitnessFiles (by decide) (by decide) (by decide)).2.2.1,
   (c2_module_error_containment [] (.dir "repo" []) [] ["x.py"] "boom"
      c2WitnessFiles (by decide) (by decide) (by decide)).2.2.2.1⟩

/-! ## Claim C4 (deterministic sorted orchestration)

`analyze_repo` collects per-file `ModuleInfo`s — sequentially, or from a
process pool in completion order — and then sorts them by `path`
(`modules.sort(key=lambda m: m.path)`, a stable sort modelled by
`insertionSort`).  Workers are pure (`_analyze_file_worker` calls
`_analyze_module` and the `asdict`/`_module_info_from_dict` round trip is
the identity on the dataclass values), so the parallel path is the same
map over a permuted file list. -/

/-- The sort key relation of `modules.sort(key=lambda m: m.path)`. -/
def modLe (a b : ModuleInfo) : Prop := a.path ≤ b.path

instance : DecidableRel modLe :=
  fun a b => inferInstanceAs (Decidable (a.path ≤ b.path))

instance : IsTotal ModuleInfo modLe := ⟨fun a b => le_total a.path b.path⟩

instance : IsTrans ModuleInfo modLe := ⟨fun _ _ _ h1 h2 => le_trans h1 h2⟩

/-- The final `modules.sort(key=lambda m: m.path)`. -/
def sortModules (mods : List ModuleInfo) : List ModuleInfo :=
  List.insertionSort modLe mods

/-- The module list of `analyze_repo`: analyze every file, then sort by
path.  `fileOrder` is the order in which results are collected (the file
list itself sequentially; any completion order in the parallel path). -/
def analyzeRepoModules (stdlib : List String) (root : FSTree)
    (roots : List (List String))
    (fileOrder : List (List String × PyFileContent)) : List ModuleInfo :=
  sortModules (fileOrder.map (fun fc => analyzeModule stdlib root roots fc.1 fc.2))

theorem analyzeModule_path (stdlib : List String) (root : FSTree)
    (roots : List (List String)) (relPath : List String) (c : PyFileContent) :
    (analyzeModule stdlib root roots relPath c).path
      = String.intercalate "/" relPath := by
  cases c <;> rfl

/-- Two sorted permutations of each other with pairwise-distinct keys are
equal (sorting by a duplicate-free key is canonical). -/
theorem insertionSort_eq_of_perm_of_nodup_keys {α κ : Type} [LinearOrder κ]
    (key : α → κ) (r : α → α → Prop) [DecidableRel r]
    (hr : ∀ a b, r a b ↔ key a ≤ key b)
    (l₁ l₂ : List α) (hp : List.Perm l₁ l₂) (hn : (l₁.map key).Nodup) :
    List.insertionSort r l₁ = List.insertionSort r l₂ := by
  haveI : IsTotal α r := ⟨fun a b => by
    rw [hr, hr]; exact le_total (key a) (key b)⟩
  haveI : IsTrans α r := ⟨fun a b c h1 h2 => by
    rw [hr] at *; exact le_trans h1 h2⟩
  have hps : List.Perm (List.insertionSort r l₁) (List.insertionSort r l₂) :=
    ((List.perm_insertionSort r l₁).trans hp).trans
      (List.perm_insertionSort r l₂).symm
  have hn₁ : ((List.insertionSort r l₁).map key).Nodup :=
    (((List.perm_insertionSort r l₁).map key).nodup_iff).mpr hn
  have hn₂ : ((List.insertionSort r l₂).map key).Nodup :=
    ((hps.map key).nodup_iff).mp hn₁
  have strict : ∀ (s : List α), s.Sorted r → ((s.map key).Nodup) →
      s.Sorted (fun a b => key a < key b) := by
    intro s hs hnd
    have hne : s.Pairwise (fun a b => key a ≠ key b) := List.pairwise_map.mp hnd
    exact (hs.and hne).imp (fun h => lt_of_le_of_ne ((hr _ _).mp h.1) h.2)
  haveI : IsAntisymm α (fun a b => key a < key b) :=
    ⟨fun _ _ h1 h2 => (lt_asymm h1 h2).elim⟩
  exact List.eq_of_perm_of_sorted hps
    (strict _ (List.sorted_insertionSort r l₁) hn₁)
    (strict _ (List.sorted_insertionSort r l₂) hn₂)

/-- C4: the report's module list is sorted by file path, and the parallel
path (results collected in any completion order) produces exactly the
sequential list, provided the files' relative paths are pairwise
distinct (distinct files have distinct paths). -/
theorem c4_parallel_determinism (stdlib : List String) (root : FSTree)
    (roots : List (List String))
    (files completionOrder : List (List String × PyFileContent))
    (hperm : List.Perm completionOrder files)
    (hnodup : (files.map (fun fc => String.intercalate "/" fc.1)).Nodup) :
    analyzeRepoModules stdlib root roots completionOrder
      = analyzeRepoModules stdlib root roots files
    ∧ (analyzeRepoModules stdlib root roots files).Sorted modLe := by
  constructor
  · unfold analyzeRepoModules sortModules
    apply insertionSort_eq_of_perm_of_nodup_keys (fun m : ModuleInfo => m.path)
      modLe (fun _ _ => Iff.rfl)
    · exact hperm.map _
    · rw [List.map_map]
      have : ((fun m : ModuleInfo => m.path)
            ∘ fun fc : List String × PyFileContent =>
              analyzeModule stdlib root roots fc.1 fc.2)
          = fun fc : List String × PyFileContent =>
              String.intercalate "/" fc.1 := by
        funext fc
        exact analyzeModule_path stdlib root roots fc.1 fc.2
      rw [this]
      exact (hperm.map _).nodup_iff.mpr hnodup
  · exact List.sorted_insertionSort modLe _

/-- The two files of the C4 witness. -/
def c4FileA : List String × PyFileContent := (["a.py"], .parsed [.passStmt])

/-- The second file of the C4 witness. -/
def c4FileB : List String × PyFileContent := (["b.py"], .parsed [])

/-- Witness for `c4_parallel_determinism`: collecting the two files in
reversed completion order yields the same sorted module list. -/
theorem c4_parallel_determinism_witness :
    analyzeRepoModules [] (.dir "repo" []) [] [c4FileB, c4FileA]
      = analyzeRepoModules [] (.dir "repo" []) [] [c4FileA, c4FileB]
    ∧ (analyzeRepoModules [] (.dir "repo" []) [] [c4FileA, c4FileB]).Sorted modLe :=
  c4_parallel_determinism [] (.dir "repo" []) [] [c4FileA, c4FileB]
    [c4FileB, c4FileA] (List.Perm.swap c4FileA c4FileB []) (by decide)

/-! ## Test-generation hints (`_generate_test_hints`) -/

/-- One high-priority target entry (the source uses a dict with keys
`name`/`reason`). -/
structure HPTarget where
  name : String
  reason : String
  deriving DecidableEq, Repr

/-- `TestGenerationHints` of the source. -/
structure TestGenerationHints where
  suggested_test_order : List String
  shared_fixtures_needed : List String
  mocking_targets : List String
  high_priority_targets : List HPTarget
  deriving DecidableEq, Repr

/-- The set of module stems with an associated test file by name
convention (`test_foo.py` / `foo_test.py` cover `foo`). -/
def testedModules (testFiles : List String) : List String :=
  testFiles.flatMap (fun tf =>
    let base := pyStem (lastComponent tf)
    if strStartsWith base "test_" then [base.drop 5]
    else if strEndsWith base "_test" then [base.dropRight 5]
    else [])

/-- The `all_funcs` triples `(qualified_name, cyclomatic, has_test)` of
`_generate_test_hints`: every top-level function carries its module's
test-file association; every class method is recorded with `has_test =
False` unconditionally. -/
def allFuncsTriples (modules : List ModuleInfo) (testFiles : List String) :
    List (String × Int × Bool) :=
  modules.flatMap (fun mod =>
    let modHasTest := (testedModules testFiles).contains (pyStem (lastComponent mod.path))
    mod.functions.map (fun f =>
      (f.qualified_name, f.complexity.cyclomatic, modHasTest))
    ++ mod.classes.flatMap (fun cls =>
        cls.methods.valuesOrder.map (fun f =>
          (f.qualified_name, f.complexity.cyclomatic, false))))

/-- The comparison of `sorted(..., key=lambda x: -x[1])`: ascending in the
negated complexity, i.e. non-increasing complexity. -/
def hpLe (a b : String × Int × Bool) : Prop := b.2.1 ≤ a.2.1

instance : DecidableRel hpLe :=
  fun a b => inferInstanceAs (Decidable (b.2.1 ≤ a.2.1))

instance : IsTotal (String × Int × Bool) hpLe := ⟨fun a b => le_total b.2.1 a.2.1⟩

instance : IsTrans (String × Int × Bool) hpLe :=
  ⟨fun _ _ _ h1 h2 => le_trans h2 h1⟩

/-- The `high_priority` list of `_generate_test_hints`: the untested
triples, sorted by descending complexity (stably), truncated to 20. -/
def highPriorityTriples (modules : List ModuleInfo) (testFiles : List String) :
    List (String × Int × Bool) :=
  (List.insertionSort hpLe
    ((allFuncsTriples modules testFiles).filter (fun t => !t.2.2))).take 20

/-- The call-name-pattern prefixes for mocking suggestions (functions). -/
def mockCallStarts : List String :=
  ["httpx.", "requests.", "aiohttp.", "urllib.", "boto3.", "redis.", "smtp"]

/-- The database-related keywords for mocking suggestions. -/
def dbKeywords : List String := ["session", "execute", "query", "commit", "scalar"]

/-- The call-name-pattern prefixes for mocking suggestions (methods). -/
def mockCallStartsMethods : List String := ["httpx.", "requests.", "aiohttp.", "boto3."]

/-- `_generate_test_hints(modules, test_files)`. -/
def generateTestHints (modules : List ModuleInfo) (testFiles : List String) :
    TestGenerationHints :=
  let allFuncs := allFuncsTriples modules testFiles
  let highPriority := highPriorityTriples modules testFiles
  let mockingRaw := modules.flatMap (fun mod =>
    mod.functions.flatMap (fun f => f.data_flow.calls_made.flatMap (fun call =>
      (if mockCallStarts.any (fun p => strStartsWith call p) then [call] else [])
      ++ (if hasSubstr call "datetime.now" || hasSubstr call "datetime.utcnow"
            || hasSubstr call "time.time" then [call] else [])
      ++ (if dbKeywords.any (fun kw => hasSubstr (strLower call) kw) then [call]
          else [])))
    ++ mod.classes.flatMap (fun cls => cls.methods.valuesOrder.flatMap (fun f =>
        f.data_flow.calls_made.flatMap (fun call =>
          if mockCallStartsMethods.any (fun p => strStartsWith call p) then [call]
          else []))))
  let fixturesRaw := modules.flatMap (fun mod =>
    mod.imports.flatMap (fun imp =>
      (if hasSubstr (strLower imp.name) "database" || hasSubstr (strLower imp.name) "db"
       then ["database_session"] else [])
      ++ (if hasSubstr (strLower imp.name) "config"
            || hasSubstr (strLower imp.name) "settings"
          then ["test_settings"] else [])
      ++ (if hasSubstr (strLower imp.name) "client"
            || hasSubstr (strLower imp.name) "httpx"
          then ["async_http_client"] else []))
    ++ mod.functions.flatMap (fun f =>
        if f.control_flow.is_coroutine then ["event_loop"] else []))
  { suggested_test_order := allFuncs.map (fun t => t.1),
    shared_fixtures_needed := sortedDedup fixturesRaw,
    mocking_targets := sortedDedup mockingRaw,
    high_priority_targets := highPriority.map (fun t =>
      ⟨t.1, "cyclomatic_complexity=" ++ toString t.2.1 ++ ", no existing tests"⟩) }

/-! ## Claims C9 and C10 (high-priority ranking) -/

/-- The module of scenario E: `m.py` with an untested function of
cyclomatic complexity 10 (nine conditionals) and one of complexity 2. -/
def c9ModE : ModuleInfo :=
  analyzeModule [] (.dir "repo" []) [] ["m.py"] (.parsed
    [.functionDef false "f10" {}
      (List.replicate 9 (.ifStmt (.name "c") [.passStmt] [])) [] Option.none 1
      (Option.some 10),
     .functionDef false "f2" {} [.ifStmt (.name "c") [.passStmt] []] [] Option.none
      12 (Option.some 13)])

/-- The module of the C9 counterexample and the C9/C10 witnesses:
`foo.py` with a top-level function `g` and a class `C` with method `m`,
next to a test file `test_foo.py`. -/
def c9WitnessMod : ModuleInfo :=
  analyzeModule [] (.dir "repo" []) [] ["foo.py"] (.parsed
    [.functionDef false "g" {} [.passStmt] [] Option.none 1 (Option.some 1),
     .classDef "C" []
       [.functionDef false "m" {} [.passStmt] [] Option.none 3 (Option.some 3)]
       [] 2 (Option.some 3)])

/-- C9 fails as stated: with a matching test file `test_foo.py` present,
the owning module of `foo.C.m` has an associated test file, yet the method
appears in the high-priority target list (methods are recorded as untested
unconditionally). -/
theorem c9_high_priority_counterexample :
    (testedModules ["test_foo.py"]).contains
        (pyStem (lastComponent c9WitnessMod.path)) = true
    ∧ (highPriorityTriples [c9WitnessMod] ["test_foo.py"]).any
        (fun t => t.1 == "foo.C.m") = true
    ∧ (generateTestHints [c9WitnessMod] ["test_foo.py"]).high_priority_targets.any
        (fun t => t.name == "foo.C.m") = true := by
  refine ⟨by decide, by decide, by decide⟩

/-- C9 (amended): the high-priority target list contains only entries
recorded as untested — top-level functions of modules without an associated
test file, plus class methods, which are always recorded as untested — is
ordered by non-increasing cyclomatic complexity, and is truncated to the
top 20; top-level functions of modules with an associated test file are
recorded as tested and never appear.  In scenario E the complexity-10
function is ranked strictly before the complexity-2 one. -/
theorem c9_high_priority_ranking (modules : List ModuleInfo)
    (testFiles : List String) :
    (∀ t ∈ highPriorityTriples modules testFiles, t.2.2 = false)
    ∧ (highPriorityTriples modules testFiles).Sorted hpLe
    ∧ (highPriorityTriples modules testFiles).length ≤ 20
    ∧ (∀ mod ∈ modules,
        (testedModules testFiles).contains (pyStem (lastComponent mod.path)) = true →
        ∀ f ∈ mod.functions,
          (f.qualified_name, f.complexity.cyclomatic, true)
              ∈ allFuncsTriples modules testFiles
          ∧ (f.qualified_name, f.complexity.cyclomatic, true)
              ∉ highPriorityTriples modules testFiles)
    ∧ ((generateTestHints [c9ModE] []).high_priority_targets.map (fun t => t.name)
        = ["m.f10", "m.f2"]) := by
  have ha : ∀ t ∈ highPriorityTriples modules testFiles, t.2.2 = false := by
    intro t ht
    have h1 : t ∈ List.insertionSort hpLe
        ((allFuncsTriples modules testFiles).filter (fun t => !t.2.2)) :=
      List.mem_of_mem_take ht
    have h2 : t ∈ (allFuncsTriples modules testFiles).filter (fun t => !t.2.2) :=
      (List.perm_insertionSort hpLe _).mem_iff.mp h1
    have := (List.mem_filter.mp h2).2
    simpa using this
  refine ⟨ha, ?_, ?_, ?_, ?_⟩
  · exact List.Pairwise.sublist (List.take_sublist _ _)
      (List.sorted_insertionSort hpLe _)
  · exact List.length_take_le _ _
  · intro mod hmod htest f hf
    have h1 : (f.qualified_name, f.complexity.cyclomatic, true)
        ∈ allFuncsTriples modules testFiles := by
      unfold allFuncsTriples
      apply List.mem_flatMap.mpr
      refine ⟨mod, hmod, ?_⟩
      dsimp only
      apply List.mem_append_left
      exact List.mem_map.mpr ⟨f, hf, by rw [htest]⟩
    refine ⟨h1, ?_⟩
    intro hc
    have := ha _ hc
    simp at this
  · decide

/-- The analyzed record of the top-level function `g` of `c9WitnessMod`. -/
def c9WitnessG : FunctionInfo :=
  analyzeFunction ⟨false, "g", {}, [.passStmt], [], Option.none, 1, Option.some 1⟩
    "foo" Option.none

/-- Witness for `c9_high_priority_ranking` at a concrete repository: the
method entry of the high-priority list carries the untested flag, and the
tested top-level function `foo.g` is in the pool but not in the list. -/
theorem c9_high_priority_ranking_witness :
    (("foo.C.m", (1 : Int), false) : String × Int × Bool).2.2 = false
    ∧ (c9WitnessG.qualified_name, c9WitnessG.complexity.cyclomatic, true)
        ∈ allFuncsTriples [c9WitnessMod] ["test_foo.py"]
    ∧ (c9WitnessG.qualified_name, c9WitnessG.complexity.cyclomatic, true)
        ∉ highPriorityTriples [c9WitnessMod] ["test_foo.py"] :=
  ⟨(c9_high_priority_ranking [c9WitnessMod] ["test_foo.py"]).1
      ("foo.C.m", 1, false) (by decide),
   ((c9_high_priority_ranking [c9WitnessMod] ["test_foo.py"]).2.2.2.1
      c9WitnessMod (by decide) (by decide) c9WitnessG (by decide)).1,
   ((c9_high_priority_ranking [c9WitnessMod] ["test_foo.py"]).2.2.2.1
      c9WitnessMod (by decide) (by decide) c9WitnessG (by decide)).2⟩

/-- C10: every class method is recorded in the `all_funcs` pool with
`has_test = false` unconditionally — the module's test-file association is
consulted only for top-level functions — so every method passes the
untested filter and is eligible for the high-priority list even when its
module has a matching test file. -/
theorem c10_methods_always_untested (modules : List ModuleInfo)
    (testFiles : List String) (mod : ModuleInfo) (hmod : mod ∈ modules)
    (cls : ClassInfo) (hcls : cls ∈ mod.classes)
    (m : FunctionInfo) (hm : m ∈ cls.methods.valuesOrder) :
    (m.qualified_name, m.complexity.cyclomatic, false)
        ∈ allFuncsTriples modules testFiles
    ∧ (m.qualified_name, m.complexity.cyclomatic, false)
        ∈ (allFuncsTriples modules testFiles).filter (fun t => !t.2.2) := by
  have h1 : (m.qualified_name, m.complexity.cyclomatic, false)
      ∈ allFuncsTriples modules testFiles := by
    unfold allFuncsTriples
    apply List.mem_flatMap.mpr
    refine ⟨mod, hmod, ?_⟩
    dsimp only
    apply List.mem_append_right
    apply List.mem_flatMap.mpr
    refine ⟨cls, hcls, ?_⟩
    exact List.mem_map.mpr ⟨m, hm, rfl⟩
  exact ⟨h1, List.mem_filter.mpr ⟨h1, rfl⟩⟩

/-- The analyzed record of the method `m` of class `C` in `c9WitnessMod`. -/
def c9WitnessM : FunctionInfo :=
  analyzeFunction ⟨false, "m", {}, [.passStmt], [], Option.none, 3, Option.some 3⟩
    "foo" (Option.some "C")

/-- The analyzed record of class `C` in `c9WitnessMod`. -/
def c9WitnessC : ClassInfo :=
  analyzeClass
    ⟨"C", [], [.functionDef false "m" {} [.passStmt] [] Option.none 3 (Option.some 3)],
     [], 2, Option.some 3⟩ "foo"

/-- Witness for `c10_methods_always_untested` at a concrete repository
whose module has a matching test file. -/
theorem c10_methods_always_untested_witness :
    (c9WitnessM.qualified_name, c9WitnessM.complexity.cyclomatic, false)
        ∈ allFuncsTriples [c9WitnessMod] ["test_foo.py"]
    ∧ (c9WitnessM.qualified_name, c9WitnessM.complexity.cyclomatic, false)
        ∈ (allFuncsTriples [c9WitnessMod] ["test_foo.py"]).filter (fun t => !t.2.2) :=
  c10_methods_always_untested [c9WitnessMod] ["test_foo.py"] c9WitnessMod
    (by decide) c9WitnessC (by decide) c9WitnessM (by decide)

end CodeAnalyzer
